import Mathlib

/-!
Verification development for the Python statement-lowering core of the CPG
frontend (`CPGPython/_statements.py`).

The file shallowly embeds the lowering pass: Python syntax nodes become an
inductive type `PyStmt`/`PyExpr`, lowered graph nodes become `Decl`/`GStmt`/
`GExpr`, the shared scope manager becomes an explicit stack of frames inside a
context `Ctx`, and each handler of the source file becomes a function in a
state-and-exception monad `M`.  External collaborators that live outside the
embedded file (the expression lowerer, the scope manager, the graph-node
builders) are modelled from their interface contracts; each such definition is
marked with a doc comment starting with "Modelled from the spec".

Python object aliasing is modelled as follows: while a record's scope frame is
open, the authoritative copy of the in-progress record lives in that frame
(so that `getCurrentRecord().addField(...)` from a nested handler is visible to
the class lowerer, exactly as with a shared Python object); function
declarations are never mutated through the scope manager by nested handlers,
so they are threaded as local values, with the receiver mirrored into the
frame so that `getCurrentFunction().getReceiver()` sees it.
-/

namespace CPGPython

/-- Semantic types attached to lowered expressions.  The `list` constructor is
only used to talk about iterables and their element types. -/
inductive PyTy where
  | unknown : PyTy
  | named (s : String) : PyTy
  | list (elem : PyTy) : PyTy
deriving DecidableEq, Repr

/-- Modelled from the spec: the element type of an iterable type.  The spec's
Loop Lowerer contract says a synthesized loop variable is "typed from the
iterable's element type"; this function makes that notion concrete for the
type grammar above. -/
def PyTy.elementType : PyTy → PyTy
  | .list t => t
  | _ => .unknown

/-- Binary operator codes of augmented assignments (`ast.operator`). -/
inductive PyOp where
  | add | sub | mult
deriving DecidableEq, Repr

/-- Python expression nodes, restricted to the shapes the statement handlers
inspect.  Every constructor carries the semantic type that the external
expression lowerer assigns to the lowered expression (the lowerer is a
collaborator specified only at its interface; its `.type` accessor is the
only type information the statement handlers consult). -/
inductive PyExpr where
  | name (id : String) (ty : PyTy) : PyExpr
  | attribute (base : PyExpr) (attr : String) (ty : PyTy) : PyExpr
  | call (func : PyExpr) (args : List PyExpr)
      (keywords : List (String × PyExpr)) (ty : PyTy) : PyExpr
  | constant (lit : String) (ty : PyTy) : PyExpr

/-- One formal parameter (`ast.arg`): its name and optional annotation. -/
structure PyArg where
  arg : String
  annot : Option PyExpr

/-- The argument record of a function definition (`ast.arguments`). -/
structure PyArguments where
  posonlyargs : List PyArg
  args : List PyArg
  vararg : Option PyArg
  kwonlyargs : List PyArg
  kw_defaults : List (Option PyExpr)
  kwarg : Option PyArg
  defaults : List PyExpr

/-- One import alias (`ast.alias`): `import name as asname`. -/
structure PyAlias where
  name : String
  asname : Option String

/-- Python statement nodes, covering every `isinstance` branch of
`handle_statement_impl`. -/
inductive PyStmt where
  | functionDef (name : String) (args : PyArguments) (body : List PyStmt)
      (decorator_list : List PyExpr) (returns : Option PyExpr) : PyStmt
  | asyncFunctionDef (name : String) (args : PyArguments) (body : List PyStmt)
      (decorator_list : List PyExpr) (returns : Option PyExpr) : PyStmt
  | classDef (name : String) (bases : List PyExpr)
      (keywords : List (String × PyExpr)) (body : List PyStmt)
      (decorator_list : List PyExpr) : PyStmt
  | ret (value : Option PyExpr) : PyStmt
  | delete : PyStmt
  | assign (targets : List PyExpr) (value : PyExpr) : PyStmt
  | augAssign (target : PyExpr) (op : PyOp) (value : PyExpr) : PyStmt
  | annAssign (target : PyExpr) (annot : PyExpr)
      (value : Option PyExpr) : PyStmt
  | forStmt (target : PyExpr) (iter : PyExpr) (body : List PyStmt)
      (orelse : List PyStmt) : PyStmt
  | asyncFor (target : PyExpr) (iter : PyExpr) (body : List PyStmt)
      (orelse : List PyStmt) : PyStmt
  | whileStmt (test : PyExpr) (body : List PyStmt)
      (orelse : List PyStmt) : PyStmt
  | ifStmt (test : PyExpr) (body : List PyStmt)
      (orelse : List PyStmt) : PyStmt
  | withStmt : PyStmt
  | asyncWith : PyStmt
  | raiseStmt : PyStmt
  | assertStmt : PyStmt
  | importStmt (names : List PyAlias) : PyStmt
  | importFrom (module : Option String) (names : List PyAlias) : PyStmt
  | globalStmt : PyStmt
  | nonlocalStmt : PyStmt
  | exprStmt (value : PyExpr) : PyStmt
  | pass : PyStmt
  | brk : PyStmt
  | cont : PyStmt
  | tryStmt (body : List PyStmt) (handlers : Nat) (orelse : List PyStmt)
      (finalbody : List PyStmt) : PyStmt

/-- Source-text rendering of expressions; stands in for the external
`get_src_code` accessor on expression nodes.  Only the rough shape matters:
the lowering logic stores these strings but never branches on them. -/
def pySrc : PyExpr → String
  | .name id _ => id
  | .attribute base attr _ => pySrc base ++ "." ++ attr
  | .call f _ _ _ => pySrc f ++ "(...)"
  | .constant lit _ => lit

/-- Modelled from the spec: `get_src_code` on statement nodes, the external
accessor returning the statement's source text.  The lowering logic stores the
snippet on produced nodes but never inspects it, so a shallow rendering
suffices. -/
def get_src_code : PyStmt → String
  | .functionDef n _ _ _ _ => "def " ++ n ++ "(...): ..."
  | .asyncFunctionDef n _ _ _ _ => "async def " ++ n ++ "(...): ..."
  | .classDef n _ _ _ _ => "class " ++ n ++ ": ..."
  | .ret _ => "return ..."
  | .delete => "del ..."
  | .assign [t] v => pySrc t ++ " = " ++ pySrc v
  | .assign _ v => "... = " ++ pySrc v
  | .augAssign t _ v => pySrc t ++ " ?= " ++ pySrc v
  | .annAssign t _ (some v) => pySrc t ++ ": ... = " ++ pySrc v
  | .annAssign t _ none => pySrc t ++ ": ..."
  | .forStmt t i _ _ => "for " ++ pySrc t ++ " in " ++ pySrc i ++ ": ..."
  | .asyncFor t i _ _ =>
      "async for " ++ pySrc t ++ " in " ++ pySrc i ++ ": ..."
  | .whileStmt t _ _ => "while " ++ pySrc t ++ ": ..."
  | .ifStmt t _ _ => "if " ++ pySrc t ++ ": ..."
  | .withStmt => "with ..."
  | .asyncWith => "async with ..."
  | .raiseStmt => "raise ..."
  | .assertStmt => "assert ..."
  | .importStmt _ => "import ..."
  | .importFrom _ _ => "from ... import ..."
  | .globalStmt => "global ..."
  | .nonlocalStmt => "nonlocal ..."
  | .exprStmt v => pySrc v
  | .pass => "pass"
  | .brk => "break"
  | .cont => "continue"
  | .tryStmt _ _ _ _ => "try: ..."

/-- Lowered graph expressions, as produced by the external expression lowerer.
`ref` is a `DeclaredReferenceExpression`, `member` a `MemberExpression`
(whose `getName` is the member name and `getBase` the lowered base), `binop`
a `BinaryOperator`, and `other` any other lowered expression. -/
inductive GExpr where
  | ref (name : String) (ty : PyTy) (code : String)
      (refersTo : Option String) : GExpr
  | member (base : GExpr) (name : String) (ty : PyTy) (code : String) : GExpr
  | binop (op : String) (lhs : Option GExpr) (rhs : Option GExpr)
      (code : String) : GExpr
  | other (name : String) (ty : PyTy) (code : String) : GExpr

/-- The `getName` accessor of a lowered expression. -/
def GExpr.gname : GExpr → String
  | .ref n _ _ _ => n
  | .member _ n _ _ => n
  | .binop _ _ _ _ => ""
  | .other n _ _ => n

/-- The `getType` accessor of a lowered expression. -/
def GExpr.gtype : GExpr → PyTy
  | .ref _ t _ _ => t
  | .member _ _ t _ => t
  | .binop _ _ _ _ => .unknown
  | .other _ t _ => t

/-- The `getCode` accessor of a lowered expression. -/
def GExpr.gcode : GExpr → String
  | .ref _ _ c _ => c
  | .member _ _ _ c => c
  | .binop _ _ _ c => c
  | .other _ _ c => c

/-- The `getBase` accessor: defined on member expressions. -/
def GExpr.gbase : GExpr → Option GExpr
  | .member b _ _ _ => some b
  | _ => none

/-- Modelled from the spec: `is_declared_reference`, the classification query
of the expression lowerer.  Plain name references satisfy it; the source's
handling of member-expression targets (the "got a MemberExpression" diagnostic
at the class-body branch) shows member expressions do not. -/
def is_declared_reference : GExpr → Bool
  | .ref _ _ _ _ => true
  | _ => false

/-- Modelled from the spec: `is_member_expression`, the classification query
for member-access expressions. -/
def is_member_expression : GExpr → Bool
  | .member _ _ _ _ => true
  | _ => false

/-- One member of a decorator annotation. -/
structure AnnotMember where
  mname : String
  value : Option GExpr
  code : String

/-- A decorator annotation: a name and an ordered member list. -/
structure Annot where
  aname : String
  code : String
  members : List AnnotMember

/-- Kinds of produced graph declarations. -/
inductive DeclKind where
  | record | function | method | constructor | variable | field | parameter
deriving DecidableEq, Repr

mutual
/-- A produced graph declaration.  One constructor carries every field a
declaration kind can use; kinds simply leave inapplicable fields empty.
Fields, in order: kind, name, semantic type, source snippet, initializer,
receiver (methods), body (functions), methods / fields / statements
(records), superclasses (records), annotation list (functions). -/
inductive Decl where
  | mk (kind : DeclKind) (name : String) (ty : PyTy) (code : String)
      (initializer : Option GExpr) (receiver : Option Decl)
      (body : Option GStmt) (methods : List Decl) (fields : List Decl)
      (statements : List GStmt) (superclasses : List PyTy)
      (annots : List Annot) : Decl

/-- A produced graph statement.  `ofExpr` injects a lowered expression used in
statement position (CPG expressions are statements); `declStmt` is a
`DeclarationStatement`; `placeholder` is the bare `newStatement` node used on
diagnostic paths; `empty` is `newEmptyStatement`. -/
inductive GStmt where
  | ofExpr (e : GExpr) : GStmt
  | declStmt (decls : List Decl) (code : String) : GStmt
  | compound (stmts : List GStmt) (code : String) : GStmt
  | returnStmt (value : Option GExpr) (code : String) : GStmt
  | whileStmt (cond : Option GExpr) (condDecl : Option GExpr)
      (body : Option GStmt) (code : String) : GStmt
  | ifStmt (cond : Option GExpr) (thenStmt : Option GStmt)
      (elseStmt : Option GStmt) (code : String) : GStmt
  | forEach (iterable : Option GExpr) (loopVar : Option GStmt)
      (body : Option GStmt) (code : String) : GStmt
  | tryStmt (tryBlock : Option GStmt) (finallyBlock : Option GStmt)
      (code : String) : GStmt
  | breakStmt (code : String) : GStmt
  | empty (code : String) : GStmt
  | placeholder (code : String) : GStmt
end

namespace Decl

def kind : Decl → DeclKind
  | .mk k _ _ _ _ _ _ _ _ _ _ _ => k

def name : Decl → String
  | .mk _ n _ _ _ _ _ _ _ _ _ _ => n

def ty : Decl → PyTy
  | .mk _ _ t _ _ _ _ _ _ _ _ _ => t

def code : Decl → String
  | .mk _ _ _ c _ _ _ _ _ _ _ _ => c

def initializer : Decl → Option GExpr
  | .mk _ _ _ _ i _ _ _ _ _ _ _ => i

def receiver : Decl → Option Decl
  | .mk _ _ _ _ _ r _ _ _ _ _ _ => r

def body : Decl → Option GStmt
  | .mk _ _ _ _ _ _ b _ _ _ _ _ => b

def methods : Decl → List Decl
  | .mk _ _ _ _ _ _ _ m _ _ _ _ => m

def fields : Decl → List Decl
  | .mk _ _ _ _ _ _ _ _ f _ _ _ => f

def statements : Decl → List GStmt
  | .mk _ _ _ _ _ _ _ _ _ s _ _ => s

def superclasses : Decl → List PyTy
  | .mk _ _ _ _ _ _ _ _ _ _ sc _ => sc

def annots : Decl → List Annot
  | .mk _ _ _ _ _ _ _ _ _ _ _ a => a

/-- A declaration with only kind, name, type and code set. -/
def base (k : DeclKind) (n : String) (t : PyTy) (c : String) : Decl :=
  .mk k n t c none none none [] [] [] [] []

def withInitializer : Decl → Option GExpr → Decl
  | .mk k n t c _ r b m f s sc a, i => .mk k n t c i r b m f s sc a

def withReceiver : Decl → Option Decl → Decl
  | .mk k n t c i _ b m f s sc a, r => .mk k n t c i r b m f s sc a

def withBody : Decl → Option GStmt → Decl
  | .mk k n t c i r _ m f s sc a, b => .mk k n t c i r b m f s sc a

def addMethod : Decl → Decl → Decl
  | .mk k n t c i r b m f s sc a, d => .mk k n t c i r b (m ++ [d]) f s sc a

def addField : Decl → Decl → Decl
  | .mk k n t c i r b m f s sc a, d => .mk k n t c i r b m (f ++ [d]) s sc a

def addStatement : Decl → GStmt → Decl
  | .mk k n t c i r b m f s sc a, st =>
      .mk k n t c i r b m f (s ++ [st]) sc a

def withSuperclasses : Decl → List PyTy → Decl
  | .mk k n t c i r b m f s _ a, sc => .mk k n t c i r b m f s sc a

def withAnnots : Decl → List Annot → Decl
  | .mk k n t c i r b m f s sc _, a => .mk k n t c i r b m f s sc a

/-- A dummy declaration, used only on paths the source treats as
unreachable. -/
def dummy : Decl := base .function "DUMMY" .unknown "DUMMY"

/-- Whether a declaration kind opens a function-like scope frame.  Methods
and constructors are function declarations in the graph model. -/
def isFunctionKind : Decl → Bool
  | d => d.kind = .function || d.kind = .method || d.kind = .constructor

end Decl

/-- Severity levels of the diagnostics sink. -/
inductive Level where
  | error | warn | trace
deriving DecidableEq, Repr

/-- One diagnostic message. -/
structure Diag where
  msg : String
  level : Level
deriving DecidableEq, Repr

/-- Python runtime failures the lowering can raise (the source has no
handlers for them, so they abort the pass), plus exhaustion of the recursion
fuel used by the embedding. -/
inductive Crash where
  | attributeError | unboundLocal | outOfFuel
deriving DecidableEq, Repr

/-- Observable actions on the shared collaborators, recorded in source order:
expression lowering, scope entry and exit, declaration registration and
reference resolution.  The ordering claims of the spec are stated over this
trace. -/
inductive Event where
  | lowerExpr (e : PyExpr) : Event
  | enterScope (name : String) : Event
  | leaveScope (name : String) : Event
  | addDecl (name : String) : Event
  | resolveRef (name : String) : Event

/-- One lexical frame of the scope stack: the container declaration that
opened it (none for the global frame) and the declarations registered in
it. -/
structure Frame where
  container : Option Decl
  decls : List Decl

/-- The shared mutable context: the scope stack (head is the innermost
frame), the diagnostics sink, the event trace, and the current namespace
name used when superclass names are qualified. -/
structure Ctx where
  frames : List Frame
  diags : List Diag
  events : List Event
  namespaceName : String

/-- Outcome of a lowering computation: a result with the final context, or a
Python-level failure with the context at the point of failure. -/
inductive MRes (α : Type) where
  | ok (a : α) (c : Ctx) : MRes α
  | err (e : Crash) (c : Ctx) : MRes α

/-- The lowering monad: state over `Ctx` with Python-level failures. -/
def M (α : Type) : Type := Ctx → MRes α

namespace M

def pure' (a : α) : M α := fun c => .ok a c

def bind' (m : M α) (f : α → M β) : M β := fun c =>
  match m c with
  | .ok a c' => f a c'
  | .err e c' => .err e c'

instance : Monad M where
  pure := pure'
  bind := bind'

/-- Raise a Python-level failure. -/
def throwCrash (e : Crash) : M α := fun c => .err e c

/-- Read the context. -/
def read : M Ctx := fun c => .ok c c

/-- Update the context. -/
def mod (f : Ctx → Ctx) : M Unit := fun c => .ok () (f c)

/-- Evaluate a computation on a context. -/
def run (m : M α) (c : Ctx) : MRes α := m c

end M

/-- Append a diagnostic; embeds `log_with_loc`. -/
def log_with_loc (msg : String) (level : Level := .trace) : M Unit :=
  M.mod fun c => { c with diags := c.diags ++ [⟨msg, level⟩] }

/-- Record an event on the trace. -/
def emit (e : Event) : M Unit :=
  M.mod fun c => { c with events := c.events ++ [e] }

/-- The `NOT_IMPLEMENTED_MSG` constant of `_misc`.  Modelled from the spec:
the "unimplemented" diagnostic text; only its identity matters. -/
def NOT_IMPLEMENTED_MSG : String := "Not implemented"

/-- Name lookup over the frame stack, searching from the innermost frame
outward. -/
def lookupName : List Frame → String → Option Decl
  | [], _ => none
  | fr :: rest, n =>
      match fr.decls.find? (fun d => d.name = n) with
      | some d => some d
      | none => lookupName rest n

/-- Reference resolution over a frame stack: a declared reference or member
expression resolves to the first declaration with its name; any other
expression shape is not a reference and never resolves. -/
def resolveFrames (frames : List Frame) (e : GExpr) : Option Decl :=
  match e with
  | .ref n _ _ _ => lookupName frames n
  | .member _ n _ _ => lookupName frames n
  | _ => none

/-- Whether some frame of the stack is a record scope. -/
def framesInRecord (frames : List Frame) : Bool :=
  frames.any fun fr =>
    match fr.container with
    | some d => d.kind = .record
    | none => false

/-- Whether some frame of the stack is a function scope. -/
def framesInFunction (frames : List Frame) : Bool :=
  frames.any fun fr =>
    match fr.container with
    | some d => d.isFunctionKind
    | none => false

/-- The container of the innermost function frame. -/
def framesCurrentFunction : List Frame → Option Decl
  | [] => none
  | fr :: rest =>
      match fr.container with
      | some d =>
          if d.isFunctionKind then some d else framesCurrentFunction rest
      | none => framesCurrentFunction rest

namespace Ctx

/-- Modelled from the spec: `resolve_reference` of the scope manager. -/
def resolve (c : Ctx) (e : GExpr) : Option Decl :=
  resolveFrames c.frames e

/-- Modelled from the spec: `is_in_record` of the scope manager. -/
def isInRecord (c : Ctx) : Bool :=
  framesInRecord c.frames

/-- Modelled from the spec: `is_in_function` of the scope manager. -/
def isInFunction (c : Ctx) : Bool :=
  framesInFunction c.frames

/-- Modelled from the spec: `current_function` of the scope manager. -/
def currentFunction (c : Ctx) : Option Decl :=
  framesCurrentFunction c.frames

/-- The name of the current function's receiver, when there is one.  This
packages lines 617-623 of the source: `getCurrentFunction()`, then
`getReceiver()`, then `getName()`; the result is `None` when either step
yields nothing. -/
def receiverName (c : Ctx) : Option String :=
  match c.currentFunction with
  | some f =>
      match f.receiver with
      | some recv => some recv.name
      | none => none
  | none => none

end Ctx

/-- The receiver identity test of lines 624-626: the member target's base
must be a declared reference whose name equals the current receiver's name
(a comparison against Python `None` is `False`). -/
def memBaseIsReceiver (c : Ctx) (base : GExpr) : Bool :=
  is_declared_reference base && (some base.gname == c.receiverName)

/-- Modelled from the spec: `enter_scope` of the scope manager — push a
fresh frame for the container. -/
def enterScope (d : Decl) : M Unit := do
  emit (.enterScope d.name)
  M.mod fun c => { c with frames := ⟨some d, []⟩ :: c.frames }

/-- Modelled from the spec: `leave_scope` of the scope manager — pop the
innermost frame and surface its container (the source passes the container
object for a balance check only). -/
def leaveScope (d : Decl) : M (Option Decl) := do
  emit (.leaveScope d.name)
  let c ← M.read
  match c.frames with
  | [] => pure none
  | fr :: rest => do
      M.mod fun c' => { c' with frames := rest }
      pure fr.container

/-- Registration of a declaration on the innermost frame of a stack. -/
def addDeclFrames (d : Decl) : List Frame → List Frame
  | [] => []
  | fr :: rest => { fr with decls := fr.decls ++ [d] } :: rest

/-- Modelled from the spec: `add_declaration` of the scope manager —
register a declaration in the innermost frame. -/
def addDeclaration (d : Decl) : M Unit := do
  emit (.addDecl d.name)
  M.mod fun c => { c with frames := addDeclFrames d c.frames }

/-- Read the container of the innermost frame.  The class lowerer mutates
the in-progress record through its frame; the dummy fallback is never
reached on balanced paths. -/
def getTopContainer : M Decl := do
  let c ← M.read
  match c.frames with
  | fr :: _ => pure (fr.container.getD .dummy)
  | [] => pure .dummy

/-- Apply a mutation to the innermost frame's container.  This realizes a
Python method call on the object the frame aliases. -/
def modifyTopContainer (f : Decl → Decl) : M Unit :=
  M.mod fun c =>
    { c with
      frames :=
        match c.frames with
        | [] => []
        | fr :: rest => { fr with container := fr.container.map f } :: rest }

/-- Apply a mutation to the container of the innermost record frame; this
realizes `getCurrentRecord().addField(...)` acting on the shared record
object. -/
def modifyCurrentRecord (f : Decl → Decl) : M Unit :=
  M.mod fun c => { c with frames := go c.frames }
where
  go : List Frame → List Frame
    | [] => []
    | fr :: rest =>
        match fr.container with
        | some d =>
            if d.kind = .record then { fr with container := some (f d) } :: rest
            else fr :: go rest
        | none => fr :: go rest

/-- Modelled from the spec: `resolveReference` as invoked by the handlers;
it records the query on the trace and resolves against the current stack. -/
def resolveReference (e : GExpr) : M (Option Decl) := do
  emit (.resolveRef e.gname)
  let c ← M.read
  pure (c.resolve e)

/-! Graph-node builders.  These mirror the Kotlin builder entry points the
source imports; the `frontend` argument they take in the source carries no
information the lowering consults and is dropped here. -/

namespace DeclarationBuilderKt

def newRecordDeclaration (name : String) (_kindStr : String)
    (code : String) : Decl :=
  Decl.base .record name .unknown code

def newVariableDeclaration (name : String) (tpe : PyTy) (code : String)
    (_implicitInitializerAllowed : Bool) : Decl :=
  Decl.base .variable name tpe code

/-- The field builder: the two `None` arguments of the call sites (modifier
list and location) carry no information here; the initializer argument is
attached. -/
def newFieldDeclaration (name : String) (tpe : PyTy) (code : String)
    (initializer : Option GExpr) (_implicit : Bool) : Decl :=
  (Decl.base .field name tpe code).withInitializer initializer

def newFunctionDeclaration (name : String) (code : String) : Decl :=
  Decl.base .function name .unknown code

def newMethodDeclaration (name : String) (code : String) (_isStatic : Bool)
    (_record : Decl) : Decl :=
  Decl.base .method name .unknown code

def newConstructorDeclaration (name : String) (code : String)
    (_record : Decl) : Decl :=
  Decl.base .constructor name .unknown code

def newParamVariableDeclaration (name : String) (tpe : PyTy)
    (_variadic : Bool) (code : String) : Decl :=
  Decl.base .parameter name tpe code

end DeclarationBuilderKt

namespace StatementBuilderKt

def newStatement (code : String) : GStmt := .placeholder code

def newReturnStatement (code : String) : GStmt := .returnStmt none code

def newCompoundStatement (code : String) : GStmt := .compound [] code

def newDeclarationStatement (code : String) : GStmt := .declStmt [] code

def newEmptyStatement (code : String) : GStmt := .empty code

def newBreakStatement (code : String) : GStmt := .breakStmt code

end StatementBuilderKt

namespace ExpressionBuilderKt

def newBinaryOperator (opcode : String) (code : String) : GExpr :=
  .binop opcode none none code

end ExpressionBuilderKt

namespace NodeBuilderKt

/-- Modelled from the spec: `parseType` resolves a type name string to a
semantic type node. -/
def parseType (name : String) : PyTy := .named name

/-- The annotation builder (`newAnnotation` in the source). -/
def newAnnot (name : String) (code : String) : Annot := ⟨name, code, []⟩

def newAnnotationMember (name : String) (value : Option GExpr)
    (code : String) : AnnotMember := ⟨name, value, code⟩

end NodeBuilderKt

/-- Modelled from the spec: the pure shape of the external expression
lowerer.  A name becomes a declared reference, an attribute access a member
expression over its lowered base, and any other expression an opaque lowered
expression; the lowered node carries the type the collaborator assigns and
its source text as code. -/
def lowerPure : PyExpr → GExpr
  | .name id ty => .ref id ty id none
  | .attribute base attr ty =>
      .member (lowerPure base) attr ty (pySrc (.attribute base attr ty))
  | .call f args kws ty => .other (pySrc (.call f args kws ty)) ty
      (pySrc (.call f args kws ty))
  | .constant lit ty => .other lit ty lit

/-- Modelled from the spec: `handle_expression`, the entry point of the
expression-lowering collaborator.  Each call is recorded on the trace; the
result is the pure lowering above. -/
def handle_expression (e : PyExpr) : M GExpr := do
  emit (.lowerExpr e)
  pure (lowerPure e)

/-- Modelled from the spec: `handle_operator_code`, mapping an operator node
to its operator string. -/
def handle_operator_code : PyOp → String
  | .add => "+"
  | .sub => "-"
  | .mult => "*"

/-- The result of lowering one statement node: either a declaration or a
graph statement (lowered expressions count as statements). -/
inductive LowerResult where
  | decl (d : Decl) : LowerResult
  | stmt (s : GStmt) : LowerResult

/-- Modelled from the spec: the `is_declaration` classification query. -/
def is_declaration : LowerResult → Bool
  | .decl _ => true
  | .stmt _ => false

/-- Modelled from the spec: `wrap_declaration_to_stmt`, wrapping a bare
declaration into declaration-statement form. -/
def wrap_declaration_to_stmt (d : Decl) : GStmt := .declStmt [d] ""

/-- Embeds `handle_argument` (lines 406-417): parse the annotation into a
type when present (`arg.annotation.id` raises when the annotation is not a
plain name), build a parameter declaration and register it. -/
def handle_argument (arg : PyArg) : M Decl := do
  log_with_loc "Handling an argument"
  let tpe ← match arg.annot with
    | some (.name id _) => pure (NodeBuilderKt.parseType id)
    | some _ => M.throwCrash .attributeError
    | none => pure PyTy.unknown
  let pvd := DeclarationBuilderKt.newParamVariableDeclaration arg.arg tpe
    false ("param " ++ arg.arg)
  addDeclaration pvd
  pure pvd

/-- The guard of line 506, `stmt is ast.AugAssign`: an identity comparison
between the statement instance and the class object.  It is false for every
instance, so the augmented-assignment branch below it is dead code; the
guard is embedded faithfully. -/
def stmtIsClassAugAssign (_ : PyStmt) : Bool := false

/-- Embeds `handle_assign_impl` (lines 501-672), the assignment resolver for
`ast.Assign`, `ast.AugAssign` and `ast.AnnAssign`. -/
def handle_assign_impl (stmt : PyStmt) : M LowerResult := do
  if stmtIsClassAugAssign stmt then
    -- dead branch, lines 506-514
    match stmt with
    | .augAssign tgt op value => do
        let target ← handle_expression tgt
        let opStr := handle_operator_code op
        let v ← handle_expression value
        let r := ExpressionBuilderKt.newBinaryOperator opStr
          (get_src_code stmt)
        pure (.stmt (.ofExpr (.binop opStr (some target) (some v)
          (r.gcode))))
    | _ => pure (.stmt (.placeholder ""))
  else
  -- line 515: multi-target simple assignment
  match isMultiTargetAssign stmt with
  | true => do
      log_with_loc NOT_IMPLEMENTED_MSG .error
      pure (.stmt (.ofExpr
        (ExpressionBuilderKt.newBinaryOperator "=" (get_src_code stmt))))
  | false =>
  match assignParts stmt with
  | none => pure (.stmt (.placeholder ""))
  | some (target, value?) => do
  -- lines 526-531: parse LHS and RHS as expressions
  let lhs ← handle_expression target
  let rhs ← match value? with
    | some v => do
        let r ← handle_expression v
        pure (some r)
    | none => pure (none : Option GExpr)
  if !is_declared_reference lhs && !is_member_expression lhs then do
    -- lines 533-542
    log_with_loc "Expected a DeclaredReferenceExpression or MemberExpression"
      .error
    pure (.stmt (.ofExpr
      (ExpressionBuilderKt.newBinaryOperator "=" (get_src_code stmt))))
  else do
  let resolved_lhs ← resolveReference lhs
  let c ← M.read
  let in_record := c.isInRecord
  let in_function := c.isInFunction
  match resolved_lhs with
  | some _ => do
      -- lines 548-555: found var, rebinding "="
      pure (.stmt (.ofExpr (.binop "=" (some lhs) rhs (get_src_code stmt))))
  | none =>
    if in_record && !in_function then do
      -- lines 557-585: class-level attribute default
      let name ← if is_declared_reference lhs then pure lhs.gname
        else do
          log_with_loc "Expected a DeclaredReferenceExpression but got a MemberExpression. Using a dummy."
            .error
          pure "DUMMY"
      log_with_loc "Could not resolve: creating a new field"
      let v := match rhs with
        | some r => DeclarationBuilderKt.newFieldDeclaration name r.gtype
            (get_src_code stmt) (some r) false
        | none => DeclarationBuilderKt.newFieldDeclaration name .unknown
            (get_src_code stmt) none false
      addDeclaration v
      pure (.decl v)
    else if in_record && in_function then
      if is_declared_reference lhs then do
        -- lines 593-612: new local variable inside a method
        log_with_loc "Could not resolve: creating a new variable"
        let v := match rhs with
          | some r => DeclarationBuilderKt.newVariableDeclaration lhs.gname
              r.gtype (get_src_code stmt) false
          | none => DeclarationBuilderKt.newVariableDeclaration lhs.gname
              .unknown (get_src_code stmt) false
        let v := v.withInitializer rhs
        addDeclaration v
        pure (.decl v)
      else do
        -- lines 613-649: member-expression target inside a method
        log_with_loc "Probably a new field"
        let base := (lhs.gbase).getD (GExpr.other "" .unknown "")
        let mem_base_is_receiver := memBaseIsReceiver c base
        if !mem_base_is_receiver then do
          log_with_loc "I'm confused." .error
          pure (.stmt (StatementBuilderKt.newStatement "DUMMY"))
        else do
          let rhs := match rhs with
            | some r =>
                if is_declared_reference r then some (setRefersTo r c)
                else some r
            | none => none
          let v := match rhs with
            | some r => DeclarationBuilderKt.newFieldDeclaration lhs.gname
                r.gtype (get_src_code stmt) (some r) false
            | none => DeclarationBuilderKt.newFieldDeclaration lhs.gname
                .unknown (get_src_code stmt) none false
          addDeclaration v
          modifyCurrentRecord (fun rec' => rec'.addField v)
          pure (.decl v)
    else do
      -- lines 650-672: function or file top level
      log_with_loc "Could not resolve: creating a new variable"
      let v := match rhs with
        | some r => DeclarationBuilderKt.newVariableDeclaration lhs.gname
            r.gtype (get_src_code stmt) false
        | none => DeclarationBuilderKt.newVariableDeclaration lhs.gname
            .unknown (get_src_code stmt) false
      let v := v.withInitializer rhs
      addDeclaration v
      pure (.decl v)
where
  /-- The test of line 515: a simple assignment with target count other
  than one (the source writes `len(stmt.targets) != 1`). -/
  isMultiTargetAssign : PyStmt → Bool
    | .assign targets _ => targets.length != 1
    | _ => false
  /-- Target and right-hand side extraction of lines 521-531: the single
  target of a simple assignment, or `stmt.target` otherwise; `stmt.value`
  is absent only for annotated assignments. -/
  assignParts : PyStmt → Option (PyExpr × Option PyExpr)
    | .assign targets value =>
        match targets with
        | [t] => some (t, some value)
        | _ => none
    | .augAssign target _ value => some (target, some value)
    | .annAssign target _ value => some (target, value)
    | _ => none
  /-- Lines 631-634: `rhs.setRefersTo(resolveReference(rhs))`, recorded as
  the name of the resolved declaration. -/
  setRefersTo (r : GExpr) (c : Ctx) : GExpr :=
    match r with
    | .ref n t cd _ => .ref n t cd ((c.resolve r).map (·.name))
    | e => e

/-- Embeds `handle_assign` (lines 490-498): the traced wrapper around
`handle_assign_impl`; location attachment is observational and not
modelled. -/
def handle_assign (stmt : PyStmt) : M LowerResult := do
  log_with_loc "Start handle_assign"
  let r ← handle_assign_impl stmt
  log_with_loc "End handle_assign"
  pure r

/-- The recursion knot: nested statements are lowered through the dispatcher
itself, passed to each handler as `recStmt`. -/
abbrev RecStmt := PyStmt → M LowerResult

/-- Embeds `make_compound_statement` (lines 463-487).  An empty list yields
a warning and an empty compound; otherwise each member is lowered through
the dispatcher, declarations are wrapped into statement form, and the
results are sequenced.  The `if False and len(stmts) == 1` branch of the
source is dead code and collapses into the general branch. -/
def make_compound_statement (recStmt : RecStmt) (stmts : List PyStmt) :
    M GStmt := do
  match stmts with
  | [] => do
      log_with_loc "Expected at least one statement. Returning a dummy."
        .warn
      pure (StatementBuilderKt.newCompoundStatement "")
  | _ => do
      let children ← compoundChildren recStmt stmts
      pure (.compound children "")
where
  compoundChildren (recStmt : RecStmt) : List PyStmt → M (List GStmt)
    | [] => pure []
    | s :: rest => do
        let r ← recStmt s
        let child := match r with
          | .decl d => wrap_declaration_to_stmt d
          | .stmt st => st
        let others ← compoundChildren recStmt rest
        pure (child :: others)

/-- Embeds `handle_for` (lines 420-460).  The iterable is lowered before the
target; an unresolved target becomes a fresh variable typed with the
iterable's type, registered and wrapped into declaration-statement form. -/
def handle_for (recStmt : RecStmt) (stmt : PyStmt) : M LowerResult := do
  match forParts stmt with
  | none => do
      log_with_loc "Expected ast.AsyncFor or ast.For. Skipping evaluation."
        .error
      pure (.stmt (StatementBuilderKt.newStatement ""))
  | some (isAsync, target, iter, body, orelse) => do
      if isAsync then
        log_with_loc "async is currently not supported" .error
      -- lines 436-439: the iterable first, so the type can be set correctly
      let it ← handle_expression iter
      let target' ← handle_expression target
      let resolved_target ← resolveReference target'
      let loopVar ← match resolved_target with
        | none => do
            let v := DeclarationBuilderKt.newVariableDeclaration
              target'.gname it.gtype (pySrc target) false
            addDeclaration v
            pure (wrap_declaration_to_stmt v)
        | some _ => pure (GStmt.ofExpr target')
      let body' ← make_compound_statement recStmt body
      let _ ← (if orelse.length != 0 then
        log_with_loc NOT_IMPLEMENTED_MSG .error else pure ())
      pure (.stmt (.forEach (some it) (some loopVar) (some body')
        (get_src_code stmt)))
where
  forParts : PyStmt →
      Option (Bool × PyExpr × PyExpr × List PyStmt × List PyStmt)
    | .forStmt t i b o => some (false, t, i, b, o)
    | .asyncFor t i b o => some (true, t, i, b, o)
    | _ => none

/-- Per-decorator state of the decorator loop of `handle_function_or_method`
(lines 339-393).  Python's `annotation` local persists across loop
iterations; annotation objects live in a store so that the source's
`annotation.setMembers(members)` call can mutate an object that was already
appended to the result list, exactly as with Python references.  `lastIdx`
is the store index the `annotation` variable currently holds, `out` the
indices appended to the `annotations` list so far. -/
structure DecState where
  store : List Annot
  lastIdx : Option Nat
  out : List Nat

/-- One iteration of the decorator loop (lines 340-393).  A non-call
decorator raises at `decorator.func` (`AttributeError`); a call decorator of
unrecognized shape logs a diagnostic and leaves `annotation` unbound — the
trailing `setMembers` call then raises when no earlier iteration assigned
it, or mutates (and appends again) the previous iteration's annotation. -/
def handle_decorator (st : DecState) (decorator : PyExpr) : M DecState := do
  match decorator with
  | .call func args kws _ => do
      let (members, st) ← match func with
        | .attribute b a t => do
            let ref ← handle_expression (.attribute b a t)
            let annot := NodeBuilderKt.newAnnot ref.gcode (pySrc func)
            let member := NodeBuilderKt.newAnnotationMember "receiver"
              ref.gbase (pySrc func)
            pure ([member],
              { st with store := st.store ++ [annot],
                        lastIdx := some st.store.length })
        | .name id t => do
            let ref ← handle_expression (.name id t)
            let annot := NodeBuilderKt.newAnnot ref.gname (pySrc func)
            pure (([] : List AnnotMember),
              { st with store := st.store ++ [annot],
                        lastIdx := some st.store.length })
        | _ => do
            log_with_loc NOT_IMPLEMENTED_MSG .error
            pure (([] : List AnnotMember), st)
      -- lines 374-382: first positional argument becomes the value member
      let members ← match args with
        | arg0 :: _ => do
            let value ← handle_expression arg0
            pure (members ++ [NodeBuilderKt.newAnnotationMember "value"
              (some value) (pySrc arg0)])
        | [] => pure members
      -- lines 384-390: keyword arguments become named members
      let members ← kwMembers members kws
      -- line 392: annotation.setMembers(members)
      match st.lastIdx with
      | none => M.throwCrash .unboundLocal
      | some i => do
          let annot := (st.store.get? i).getD ⟨"", "", []⟩
          pure { st with
            store := st.store.set i { annot with members := members },
            out := st.out ++ [i] }
  | _ => M.throwCrash .attributeError
where
  kwMembers (acc : List AnnotMember) :
      List (String × PyExpr) → M (List AnnotMember)
    | [] => pure acc
    | (kwArg, kwValue) :: rest => do
        let v ← handle_expression kwValue
        kwMembers
          (acc ++ [NodeBuilderKt.newAnnotationMember kwArg (some v)
            (kwArg ++ "=" ++ pySrc kwValue)]) rest

/-- The decorator loop folded over the decorator list. -/
def decorators_loop (st : DecState) : List PyExpr → M DecState
  | [] => pure st
  | d :: rest => do
      let st' ← handle_decorator st d
      decorators_loop st' rest

/-- A diagnostic per element, for the unsupported-parameter loops of lines
297-334. -/
def diag_each (msg : String) : List α → M Unit
  | [] => pure ()
  | _ :: rest => do
      log_with_loc msg .error
      diag_each msg rest

/-- The positional-parameter loop over `handle_argument`. -/
def handle_arguments_loop : List PyArg → M Unit
  | [] => pure ()
  | a :: rest => do
      let _ ← handle_argument a
      handle_arguments_loop rest

/-- The receiver-and-parameter phase of `handle_function_or_method` (lines
300-320): in a method, the first positional argument becomes the receiver —
mirrored into the open frame so nested receiver lookups see it — and the
remaining positional arguments are lowered; in a free function every
positional argument is lowered.  Returns the (possibly receiver-carrying)
function declaration. -/
def function_params_phase (record : Option Decl) (args : PyArguments)
    (f : Decl) : M Decl :=
  match record with
  | some r => do
      let f ← match args.args with
        | recv_node :: _ => do
            let tpe := NodeBuilderKt.parseType r.name
            let recv := DeclarationBuilderKt.newVariableDeclaration
              recv_node.arg tpe ("arg " ++ recv_node.arg) false
            modifyTopContainer (fun d => d.withReceiver (some recv))
            addDeclaration recv
            pure (f.withReceiver (some recv))
        | [] => do
            log_with_loc
              "Expected to find the receiver but got nothing" .error
            pure f
      handle_arguments_loop (args.args.drop 1)
      pure f
  | none => do
      handle_arguments_loop args.args
      pure f

/-- The body phase of `handle_function_or_method` (lines 336-337): a
non-empty body is lowered into a compound and attached. -/
def function_body_phase (recStmt : RecStmt) (body : List PyStmt)
    (f : Decl) : M Decl :=
  match body with
  | [] => pure f
  | _ => do
      let b ← make_compound_statement recStmt body
      pure (f.withBody (some b))

/-- Embeds `handle_function_or_method` (lines 255-403).  The function
declaration is threaded locally; mutation of its receiver is mirrored into
its scope frame so nested lookups of the current function's receiver see it
(function objects are never otherwise mutated through the scope manager). -/
def handle_function_or_method (recStmt : RecStmt) (node : PyStmt)
    (record : Option Decl) : M Decl := do
  match functionParts node with
  | none => do
      -- lines 256-266
      log_with_loc "Expected either ast.FunctionDef or ast.AsyncFunctionDef"
        .error
      pure (DeclarationBuilderKt.newFunctionDeclaration "DUMMY" "DUMMY")
  | some (isAsync, name, args, body, decorator_list, returns) => do
      let _ ← (if isAsync then
        log_with_loc "async is currently not supported" .error
        else pure ())
      log_with_loc "Handling a function/method"
      -- lines 283-293: constructor / method / free function
      let f := match record with
        | some r =>
            if name = "__init__" then
              DeclarationBuilderKt.newConstructorDeclaration name
                (get_src_code node) r
            else
              DeclarationBuilderKt.newMethodDeclaration name
                (get_src_code node) false r
        | none =>
            DeclarationBuilderKt.newFunctionDeclaration name
              (get_src_code node)
      enterScope f
      diag_each NOT_IMPLEMENTED_MSG args.posonlyargs
      let f ← function_params_phase record args f
      -- lines 322-334: unsupported parameter shapes
      let _ ← (if args.vararg.isSome then
        log_with_loc NOT_IMPLEMENTED_MSG .error else pure ())
      diag_each NOT_IMPLEMENTED_MSG args.kwonlyargs
      diag_each NOT_IMPLEMENTED_MSG args.kw_defaults
      let _ ← (if args.kwarg.isSome then
        log_with_loc NOT_IMPLEMENTED_MSG .error else pure ())
      diag_each ("Default args. " ++ NOT_IMPLEMENTED_MSG) args.defaults
      let f ← function_body_phase recStmt body f
      -- lines 339-395: decorators into annotations
      let st ← decorators_loop ⟨[], none, []⟩ decorator_list
      let f := f.withAnnots (st.out.map fun i =>
        (st.store.get? i).getD ⟨"", "", []⟩)
      let _ ← (if returns.isSome then
        log_with_loc NOT_IMPLEMENTED_MSG .error else pure ())
      -- lines 400-402
      let _ ← leaveScope f
      addDeclaration f
      pure f
where
  functionParts : PyStmt → Option (Bool × String × PyArguments ×
      List PyStmt × List PyExpr × Option PyExpr)
    | .functionDef n a b d r => some (false, n, a, b, d, r)
    | .asyncFunctionDef n a b d r => some (true, n, a, b, d, r)
    | _ => none

/-- The class-body loop of lines 73-80.  Only synchronous `ast.FunctionDef`
members are lowered as methods (the `isinstance` test does not match
`ast.AsyncFunctionDef`, which is not its subclass); every other member is
dispatched as an ordinary statement, wrapped when it comes back as a
declaration, and appended to the record's statement list.  The record object
is the current frame's container. -/
def class_body_member (recStmt : RecStmt) (s : PyStmt) : M Unit :=
  match s with
  | .functionDef n a b d r => do
      let cls ← getTopContainer
      let m ← handle_function_or_method recStmt (.functionDef n a b d r)
        (some cls)
      modifyTopContainer (fun c => c.addMethod m)
  | _ => do
      let handled ← recStmt s
      let handled' := match handled with
        | .decl dd => wrap_declaration_to_stmt dd
        | .stmt st => st
      modifyTopContainer (fun c => c.addStatement handled')

/-- The iteration of `class_body_member` over the class body. -/
def class_body_loop (recStmt : RecStmt) : List PyStmt → M Unit
  | [] => pure ()
  | s :: rest => do
      class_body_member recStmt s
      class_body_loop recStmt rest

/-- The superclass-resolution loop of lines 55-67: non-name bases are
rejected with a diagnostic; name bases are qualified against the current
namespace and parsed into types. -/
def class_bases_loop (bases : List PyExpr) : M (List PyTy) := do
  let c ← M.read
  go c.namespaceName bases
where
  go (ns : String) : List PyExpr → M (List PyTy)
    | [] => pure []
    | b :: rest => do
        match b with
        | .name id _ => do
            let tname := ns ++ "." ++ id
            log_with_loc "Building super type using current namespace"
            let t := NodeBuilderKt.parseType tname
            let others ← go ns rest
            pure (t :: others)
        | _ => do
            log_with_loc "Expected a name" .error
            go ns rest

/-- Embeds `handle_statement_impl` (lines 47-252): the statement
dispatcher. -/
def handle_statement_impl (recStmt : RecStmt) (stmt : PyStmt) :
    M LowerResult := do
  match stmt with
  | .functionDef n a b d r => do
      let f ← handle_function_or_method recStmt (.functionDef n a b d r)
        none
      pure (.decl f)
  | .asyncFunctionDef n a b d r => do
      let f ← handle_function_or_method recStmt
        (.asyncFunctionDef n a b d r) none
      pure (.decl f)
  | .classDef name bases kws body decorator_list => do
      -- lines 52-85
      let cls := DeclarationBuilderKt.newRecordDeclaration name "class"
        (get_src_code stmt)
      let baseTys ← class_bases_loop bases
      let cls := cls.withSuperclasses baseTys
      enterScope cls
      diag_each NOT_IMPLEMENTED_MSG kws
      class_body_loop recStmt body
      diag_each NOT_IMPLEMENTED_MSG decorator_list
      let popped ← leaveScope cls
      let clsFinal := popped.getD cls
      addDeclaration clsFinal
      pure (.decl clsFinal)
  | .ret value => do
      -- lines 86-92
      let r ← match value with
        | some v => do
            let e ← handle_expression v
            pure (GStmt.returnStmt (some e) (get_src_code stmt))
        | none => pure (GStmt.returnStmt none (get_src_code stmt))
      pure (.stmt r)
  | .delete => unimplementedStmt
  | .assign targets value => handle_assign (.assign targets value)
  | .augAssign t op v => handle_assign (.augAssign t op v)
  | .annAssign t a v => handle_assign (.annAssign t a v)
  | .forStmt t i b o => handle_for recStmt (.forStmt t i b o)
  | .asyncFor t i b o => handle_for recStmt (.asyncFor t i b o)
  | .whileStmt test body orelse => do
      -- lines 108-125
      let expr ← handle_expression test
      -- the expression lowerer yields expressions, never declarations; the
      -- source's is_declaration guard on the condition is retained
      let whl :=
        if is_declaration (.stmt (.ofExpr expr)) then
          GStmt.whileStmt none (some expr) none (get_src_code stmt)
        else
          GStmt.whileStmt (some expr) none none (get_src_code stmt)
      let body' ← make_compound_statement recStmt body
      let whl := match whl with
        | .whileStmt c cd _ code => GStmt.whileStmt c cd (some body') code
        | s => s
      let _ ← (if orelse.length != 0 then
        log_with_loc "orelse is currently not supported for while" .error
        else pure ())
      pure (.stmt whl)
  | .ifStmt test body orelse => do
      -- lines 126-138
      let cond ← handle_expression test
      let thenB ← make_compound_statement recStmt body
      let elseB ← match orelse with
        | [] => pure (none : Option GStmt)
        | _ => do
            let e ← make_compound_statement recStmt orelse
            pure (some e)
      pure (.stmt (.ifStmt (some cond) (some thenB) elseB
        (get_src_code stmt)))
  | .withStmt => unimplementedStmt
  | .asyncWith => unimplementedStmt
  | .raiseStmt => unimplementedStmt
  | .assertStmt => unimplementedStmt
  | .importStmt names => do
      -- lines 156-180
      let ds ← import_aliases_loop names
      pure (.stmt (.declStmt ds (get_src_code stmt)))
  | .importFrom _ names => do
      -- lines 181-209; the body repeats the Import branch verbatim in the
      -- source and is shared here
      log_with_loc "Cannot correctly handle import from" .error
      let ds ← import_aliases_loop names
      pure (.stmt (.declStmt ds (get_src_code stmt)))
  | .globalStmt => unimplementedStmt
  | .nonlocalStmt => unimplementedStmt
  | .exprStmt value => do
      -- line 218-219
      let e ← handle_expression value
      pure (.stmt (.ofExpr e))
  | .pass => pure (.stmt (StatementBuilderKt.newEmptyStatement "pass"))
  | .brk => pure (.stmt (StatementBuilderKt.newBreakStatement
      (get_src_code stmt)))
  | .cont => unimplementedStmt
  | .tryStmt body handlers orelse finalbody => do
      -- lines 231-245
      let tryBlock ← make_compound_statement recStmt body
      let finallyBlock ← make_compound_statement recStmt finalbody
      let _ ← (if orelse.length != 0 then
        log_with_loc NOT_IMPLEMENTED_MSG .error else pure ())
      let _ ← (if handlers != 0 then
        log_with_loc ("Try handlers. " ++ NOT_IMPLEMENTED_MSG) .error
        else pure ())
      pure (.stmt (.tryStmt (some tryBlock) (some finallyBlock)
        (get_src_code stmt)))
where
  /-- The unsupported-statement pattern: a diagnostic and a named-but-empty
  placeholder. -/
  unimplementedStmt : M LowerResult := do
    log_with_loc NOT_IMPLEMENTED_MSG .error
    pure (.stmt (StatementBuilderKt.newStatement ""))
  /-- The per-alias loop of the Import and ImportFrom branches (lines
  166-179 and 196-208): each alias becomes a variable of unknown type, is
  registered in the current scope and collected on the declaration
  statement. -/
  import_aliases_loop : List PyAlias → M (List Decl)
    | [] => pure []
    | a :: rest => do
        let (nm, src) := match a.asname with
          | some asn => (asn, asn ++ " as " ++ asn)
          | none => (a.name, a.name)
        let tpe := PyTy.unknown
        let v := DeclarationBuilderKt.newVariableDeclaration nm tpe src
          false
        addDeclaration v
        let others ← import_aliases_loop rest
        pure (v :: others)

/-- Embeds `handle_statement` (lines 36-44) given the recursion for nested
statements: the traced wrapper around the dispatcher. -/
def handle_statement_with (recStmt : RecStmt) (stmt : PyStmt) :
    M LowerResult := do
  log_with_loc "Start handle_statement"
  let r ← handle_statement_impl recStmt stmt
  log_with_loc "End handle_statement"
  pure r

/-- The tied recursion: `handle_statement` with a fuel bound on statement
nesting depth.  The source recurses on the syntax tree, which is finite;
exhausted fuel is reported as a distinguished failure so no behavior is
invented for deep inputs. -/
def handle_statement : Nat → PyStmt → M LowerResult
  | 0, _ => M.throwCrash .outOfFuel
  | fuel + 1, stmt => handle_statement_with (handle_statement fuel) stmt

/-! Execution lemmas: one-step reductions for symbolic runs of `M`
computations. -/

@[simp]
theorem M.run_bind (m : M α) (f : α → M β) (c : Ctx) :
    (m >>= f).run c =
      match m.run c with
      | .ok a c' => (f a).run c'
      | .err e c' => .err e c' := rfl

@[simp]
theorem M.run_pure (a : α) (c : Ctx) :
    (Pure.pure a : M α).run c = .ok a c := rfl

@[simp]
theorem M.run_throwCrash (e : Crash) (c : Ctx) :
    (M.throwCrash e : M α).run c = .err e c := rfl

@[simp]
theorem M.run_read (c : Ctx) : M.read.run c = .ok c c := rfl

@[simp]
theorem M.run_mod (f : Ctx → Ctx) (c : Ctx) :
    (M.mod f).run c = .ok () (f c) := rfl

@[simp]
theorem run_log (msg : String) (lvl : Level) (c : Ctx) :
    (log_with_loc msg lvl).run c =
      .ok () { c with diags := c.diags ++ [⟨msg, lvl⟩] } := rfl

@[simp]
theorem run_emit (e : Event) (c : Ctx) :
    (emit e).run c = .ok () { c with events := c.events ++ [e] } := rfl

@[simp]
theorem run_handle_expression (e : PyExpr) (c : Ctx) :
    (handle_expression e).run c =
      .ok (lowerPure e) { c with events := c.events ++ [.lowerExpr e] } :=
  rfl

@[simp]
theorem run_enterScope (d : Decl) (c : Ctx) :
    (enterScope d).run c =
      .ok () { c with events := c.events ++ [.enterScope d.name],
                      frames := ⟨some d, []⟩ :: c.frames } := rfl

@[simp]
theorem run_resolveReference (e : GExpr) (c : Ctx) :
    (resolveReference e).run c =
      .ok (c.resolve e)
        { c with events := c.events ++ [.resolveRef e.gname] } := by
  cases e <;> rfl

@[simp]
theorem addDeclFrames_nil (d : Decl) : addDeclFrames d [] = [] := rfl

@[simp]
theorem addDeclFrames_cons (d : Decl) (fr : Frame) (rest : List Frame) :
    addDeclFrames d (fr :: rest) =
      { fr with decls := fr.decls ++ [d] } :: rest := rfl

@[simp]
theorem run_addDeclaration (d : Decl) (c : Ctx) :
    (addDeclaration d).run c =
      .ok ()
        { c with
          events := c.events ++ [.addDecl d.name]
          frames := addDeclFrames d c.frames } :=
  rfl

@[simp]
theorem run_modifyTopContainer (f : Decl → Decl) (c : Ctx) :
    (modifyTopContainer f).run c =
      .ok ()
        { c with
          frames :=
            match c.frames with
            | [] => []
            | fr :: rest =>
                { fr with container := fr.container.map f } :: rest } := rfl

@[simp]
theorem run_modifyCurrentRecord (f : Decl → Decl) (c : Ctx) :
    (modifyCurrentRecord f).run c =
      .ok () { c with frames := modifyCurrentRecord.go f c.frames } := rfl

@[simp]
theorem run_getTopContainer (c : Ctx) :
    getTopContainer.run c =
      .ok (match c.frames with
           | fr :: _ => fr.container.getD .dummy
           | [] => .dummy) c := by
  cases h : c.frames <;> simp [getTopContainer, M.run_bind, M.run_read, h,
    M.run_pure]

@[simp]
theorem run_leaveScope (d : Decl) (c : Ctx) :
    (leaveScope d).run c =
      (match c.frames with
       | [] => .ok none { c with events := c.events ++ [.leaveScope d.name] }
       | fr :: rest =>
           .ok fr.container
             { c with events := c.events ++ [.leaveScope d.name],
                      frames := rest }) := by
  cases h : c.frames <;>
    simp [leaveScope, M.run_bind, run_emit, M.run_read, M.run_mod,
      M.run_pure, h]

/-! Frame-discipline invariants.  A handler is `Tame` when every successful
run only appends to the event trace and relates initial to final frame
stacks by `FramesPres`: same depth, and per frame the container keeps its
kind, name, receiver, method list and statement list (its field list may
grow, by `getCurrentRecord().addField`), while the frame's registered
declarations may grow (by `addDeclaration`). -/

/-- Container preservation: identity except that fields may be appended. -/
def DeclPres (d d' : Decl) : Prop :=
  d'.kind = d.kind ∧ d'.name = d.name ∧ d'.receiver = d.receiver ∧
  d'.methods = d.methods ∧ d'.statements = d.statements ∧
  ∃ Δ, d'.fields = d.fields ++ Δ

theorem DeclPres.refl_decl (d : Decl) : DeclPres d d :=
  ⟨rfl, rfl, rfl, rfl, rfl, [], by simp⟩

theorem DeclPres.trans_decl {a b c : Decl} (h₁ : DeclPres a b)
    (h₂ : DeclPres b c) : DeclPres a c := by
  obtain ⟨k1, n1, r1, m1, s1, Δ1, f1⟩ := h₁
  obtain ⟨k2, n2, r2, m2, s2, Δ2, f2⟩ := h₂
  exact ⟨k2.trans k1, n2.trans n1, r2.trans r1, m2.trans m1, s2.trans s1,
    Δ1 ++ Δ2, by rw [f2, f1, List.append_assoc]⟩

/-- Preservation of an optional container. -/
def ContPres : Option Decl → Option Decl → Prop
  | none, none => True
  | some d, some d' => DeclPres d d'
  | _, _ => False

theorem ContPres.refl_cont (o : Option Decl) : ContPres o o := by
  cases o <;> simp [ContPres, DeclPres.refl_decl]

theorem ContPres.trans_cont {a b c : Option Decl} (h₁ : ContPres a b)
    (h₂ : ContPres b c) : ContPres a c := by
  cases a <;> cases b <;> cases c <;> simp_all [ContPres]
  exact DeclPres.trans_decl h₁ h₂

/-- Preservation of one frame. -/
def FramePres (fr fr' : Frame) : Prop :=
  ContPres fr.container fr'.container ∧ ∃ Δ, fr'.decls = fr.decls ++ Δ

theorem FramePres.refl_frame (fr : Frame) : FramePres fr fr :=
  ⟨ContPres.refl_cont _, [], by simp⟩

theorem FramePres.trans_frame {a b c : Frame} (h₁ : FramePres a b)
    (h₂ : FramePres b c) : FramePres a c := by
  obtain ⟨c1, Δ1, d1⟩ := h₁
  obtain ⟨c2, Δ2, d2⟩ := h₂
  exact ⟨c1.trans_cont c2, Δ1 ++ Δ2, by rw [d2, d1, List.append_assoc]⟩

/-- Pointwise preservation of a frame stack. -/
def FramesPres : List Frame → List Frame → Prop
  | [], [] => True
  | fr :: t, fr' :: t' => FramePres fr fr' ∧ FramesPres t t'
  | _, _ => False

theorem FramesPres.refl_frames (l : List Frame) : FramesPres l l := by
  induction l with
  | nil => trivial
  | cons fr t ih => exact ⟨FramePres.refl_frame fr, ih⟩

theorem FramesPres.trans_frames : ∀ {a b c : List Frame},
    FramesPres a b → FramesPres b c → FramesPres a c
  | [], [], [], _, _ => trivial
  | _ :: _, _ :: _, _ :: _, ⟨h1, t1⟩, ⟨h2, t2⟩ =>
      ⟨h1.trans_frame h2, FramesPres.trans_frames t1 t2⟩

/-- A computation that preserves the frame discipline on success. -/
def Tame (m : M α) : Prop :=
  ∀ c a c', m.run c = .ok a c' →
    (∃ Δ, c'.events = c.events ++ Δ) ∧ FramesPres c.frames c'.frames

theorem tame_pure (a : α) : Tame (Pure.pure a : M α) := by
  intro c a' c' h
  cases h
  exact ⟨⟨[], by simp⟩, FramesPres.refl_frames _⟩

theorem tame_throwCrash (e : Crash) : Tame (M.throwCrash e : M α) := by
  intro c a c' h
  cases h

theorem tame_bind {m : M α} {f : α → M β} (hm : Tame m)
    (hf : ∀ a, Tame (f a)) : Tame (m >>= f) := by
  intro c b c' h
  have hb : (m >>= f).run c =
      match m.run c with
      | .ok a c₁ => (f a).run c₁
      | .err e c₁ => .err e c₁ := rfl
  rw [hb] at h
  cases hm1 : m.run c with
  | ok a c₁ =>
      rw [hm1] at h
      obtain ⟨⟨Δ1, he1⟩, hp1⟩ := hm c a c₁ hm1
      obtain ⟨⟨Δ2, he2⟩, hp2⟩ := hf a c₁ b c' h
      exact ⟨⟨Δ1 ++ Δ2, by rw [he2, he1, List.append_assoc]⟩,
        hp1.trans_frames hp2⟩
  | err e c₁ =>
      rw [hm1] at h
      cases h

theorem tame_ite (p : Prop) [Decidable p] {m₁ m₂ : M α} (h₁ : Tame m₁)
    (h₂ : Tame m₂) : Tame (if p then m₁ else m₂) := by
  split <;> assumption

theorem tame_read : Tame M.read := by
  intro c a c' h
  cases h
  exact ⟨⟨[], by simp⟩, FramesPres.refl_frames _⟩

theorem tame_log (msg : String) (lvl : Level) :
    Tame (log_with_loc msg lvl) := by
  intro c a c' h
  cases h
  exact ⟨⟨[], by simp⟩, FramesPres.refl_frames _⟩

theorem tame_emit (e : Event) : Tame (emit e) := by
  intro c a c' h
  cases h
  exact ⟨⟨[e], rfl⟩, FramesPres.refl_frames _⟩

theorem tame_addDeclaration (d : Decl) : Tame (addDeclaration d) := by
  intro c a c' h
  rw [run_addDeclaration] at h
  cases h
  refine ⟨⟨[.addDecl d.name], rfl⟩, ?_⟩
  cases c.frames with
  | nil => trivial
  | cons fr rest =>
      exact ⟨⟨ContPres.refl_cont _, [d], rfl⟩, FramesPres.refl_frames _⟩

/-- The field-append mutation of the innermost record preserves every
frame. -/
theorem framesPres_addFieldGo (v : Decl) (l : List Frame) :
    FramesPres l (modifyCurrentRecord.go (fun r => r.addField v) l) := by
  induction l with
  | nil => trivial
  | cons fr rest ih =>
      simp only [modifyCurrentRecord.go]
      cases hco : fr.container with
      | none => exact ⟨FramePres.refl_frame fr, ih⟩
      | some d =>
          by_cases hk : d.kind = .record
          · simp only [hk, if_true, eq_self_iff_true]
            refine ⟨⟨?_, [], by simp⟩, FramesPres.refl_frames rest⟩
            rw [hco]
            cases d with
            | mk k n t cd i r b m f s sc an =>
                exact ⟨rfl, rfl, rfl, rfl, rfl, [v], rfl⟩
          · simp only [hk, if_false]
            exact ⟨FramePres.refl_frame fr, ih⟩

theorem tame_modifyCurrentRecord (v : Decl) :
    Tame (modifyCurrentRecord (fun r => r.addField v)) := by
  intro c a c' h
  cases h
  exact ⟨⟨[], by simp⟩, framesPres_addFieldGo v c.frames⟩

theorem tame_resolveReference (e : GExpr) : Tame (resolveReference e) := by
  intro c a c' h
  rw [run_resolveReference] at h
  cases h
  exact ⟨⟨[.resolveRef e.gname], rfl⟩, FramesPres.refl_frames _⟩

theorem tame_handle_expression (e : PyExpr) : Tame (handle_expression e) :=
  by
  intro c a c' h
  cases h
  exact ⟨⟨[.lowerExpr e], rfl⟩, FramesPres.refl_frames _⟩

theorem tame_getTopContainer : Tame getTopContainer := by
  intro c a c' h
  rw [run_getTopContainer] at h
  cases h
  exact ⟨⟨[], by simp⟩, FramesPres.refl_frames _⟩

theorem tame_handle_assign_impl (stmt : PyStmt) :
    Tame (handle_assign_impl stmt) := by
  unfold handle_assign_impl
  apply tame_ite
  · -- the dead augmented-assignment branch
    cases stmt <;>
      first
        | exact tame_pure _
        | · apply tame_bind (tame_handle_expression _); intro t
            apply tame_bind (tame_handle_expression _); intro v
            exact tame_pure _
  · cases hmt : handle_assign_impl.isMultiTargetAssign stmt with
    | false =>
      cases hap : handle_assign_impl.assignParts stmt with
      | none => exact tame_pure _
      | some p =>
          obtain ⟨target, value?⟩ := p
          apply tame_bind (tame_handle_expression _); intro lhs
          cases value? with
          | some v =>
              apply tame_bind (tame_handle_expression _); intro r
              apply tame_ite
              · exact tame_bind (tame_log _ _) fun _ => tame_pure _
              apply tame_bind (tame_resolveReference _); intro resolved
              apply tame_bind tame_read; intro cc
              cases resolved with
              | some d => exact tame_pure _
              | none =>
                  apply tame_ite
                  · apply tame_ite
                    · apply tame_bind (tame_pure _); intro nm
                      apply tame_bind (tame_log _ _); intro _
                      apply tame_bind (tame_addDeclaration _); intro _
                      exact tame_pure _
                    · apply tame_bind (tame_log _ _); intro _
                      apply tame_bind (tame_pure _); intro nm
                      apply tame_bind (tame_log _ _); intro _
                      apply tame_bind (tame_addDeclaration _); intro _
                      exact tame_pure _
                  apply tame_ite
                  · apply tame_ite
                    · apply tame_bind (tame_log _ _); intro _
                      apply tame_bind (tame_addDeclaration _); intro _
                      exact tame_pure _
                    · apply tame_bind (tame_log _ _); intro _
                      apply tame_ite
                      · exact tame_bind (tame_log _ _) fun _ => tame_pure _
                      · apply tame_bind (tame_addDeclaration _); intro _
                        apply tame_bind (tame_modifyCurrentRecord _)
                        intro _
                        exact tame_pure _
                  · apply tame_bind (tame_log _ _); intro _
                    apply tame_bind (tame_addDeclaration _); intro _
                    exact tame_pure _
          | none =>
              apply tame_ite
              · exact tame_bind (tame_log _ _) fun _ => tame_pure _
              apply tame_bind (tame_resolveReference _); intro resolved
              apply tame_bind tame_read; intro cc
              cases resolved with
              | some d => exact tame_pure _
              | none =>
                  apply tame_ite
                  · apply tame_ite
                    · apply tame_bind (tame_pure _); intro nm
                      apply tame_bind (tame_log _ _); intro _
                      apply tame_bind (tame_addDeclaration _); intro _
                      exact tame_pure _
                    · apply tame_bind (tame_log _ _); intro _
                      apply tame_bind (tame_pure _); intro nm
                      apply tame_bind (tame_log _ _); intro _
                      apply tame_bind (tame_addDeclaration _); intro _
                      exact tame_pure _
                  apply tame_ite
                  · apply tame_ite
                    · apply tame_bind (tame_log _ _); intro _
                      apply tame_bind (tame_addDeclaration _); intro _
                      exact tame_pure _
                    · apply tame_bind (tame_log _ _); intro _
                      apply tame_ite
                      · exact tame_bind (tame_log _ _) fun _ => tame_pure _
                      · apply tame_bind (tame_addDeclaration _); intro _
                        apply tame_bind (tame_modifyCurrentRecord _)
                        intro _
                        exact tame_pure _
                  · apply tame_bind (tame_log _ _); intro _
                    apply tame_bind (tame_addDeclaration _); intro _
                    exact tame_pure _
    | true => exact tame_bind (tame_log _ _) fun _ => tame_pure _

theorem tame_handle_assign (stmt : PyStmt) : Tame (handle_assign stmt) := by
  unfold handle_assign
  apply tame_bind (tame_log _ _); intro _
  apply tame_bind (tame_handle_assign_impl stmt); intro r
  apply tame_bind (tame_log _ _); intro _
  exact tame_pure _

theorem tame_diag_each (msg : String) :
    ∀ l : List α, Tame (diag_each msg l)
  | [] => tame_pure _
  | _ :: rest => tame_bind (tame_log _ _) fun _ => tame_diag_each msg rest

theorem tame_bind_throw (e : Crash) (f : α → M β) :
    Tame (M.throwCrash e >>= f) := by
  intro c a c' h
  cases h

theorem tame_handle_argument (a : PyArg) : Tame (handle_argument a) := by
  unfold handle_argument
  apply tame_bind (tame_log _ _); intro _
  cases ha : a.annot with
  | none =>
      apply tame_bind (tame_pure _); intro tpe
      apply tame_bind (tame_addDeclaration _); intro _
      exact tame_pure _
  | some e =>
      cases e
      case name id ty =>
        apply tame_bind (tame_pure _); intro tpe
        apply tame_bind (tame_addDeclaration _); intro _
        exact tame_pure _
      all_goals exact tame_bind_throw _ _

theorem tame_handle_arguments_loop :
    ∀ l : List PyArg, Tame (handle_arguments_loop l)
  | [] => tame_pure _
  | a :: rest =>
      tame_bind (tame_handle_argument a) fun _ =>
        tame_handle_arguments_loop rest

theorem tame_kwMembers (acc : List AnnotMember) :
    ∀ kws : List (String × PyExpr),
      Tame (handle_decorator.kwMembers acc kws) := by
  intro kws
  induction kws generalizing acc with
  | nil => exact tame_pure _
  | cons kv rest ih =>
      obtain ⟨ka, kvv⟩ := kv
      apply tame_bind (tame_handle_expression _); intro v
      exact ih _

theorem tame_handle_decorator (st : DecState) (d : PyExpr) :
    Tame (handle_decorator st d) := by
  unfold handle_decorator
  cases d
  case name id ty => exact tame_throwCrash _
  case constant l ty => exact tame_throwCrash _
  case call func args kws ty =>
      have tail : ∀ (p : List AnnotMember × DecState),
          Tame ((fun (ms, st') =>
            (do
              let members ← match args with
                | arg0 :: _ => do
                    let value ← handle_expression arg0
                    Pure.pure (ms ++ [NodeBuilderKt.newAnnotationMember
                      "value" (some value) (pySrc arg0)])
                | [] => Pure.pure ms
              let members ← handle_decorator.kwMembers members kws
              match st'.lastIdx with
              | none => M.throwCrash .unboundLocal
              | some i => do
                  let annot := (st'.store.get? i).getD ⟨"", "", []⟩
                  Pure.pure { st' with
                    store := st'.store.set i { annot with members := members }
                    out := st'.out ++ [i] } : M DecState)) p) := by
        intro p
        obtain ⟨ms, st'⟩ := p
        cases args with
        | nil =>
            apply tame_bind (tame_pure _); intro members
            apply tame_bind (tame_kwMembers _ _); intro members'
            cases st'.lastIdx with
            | none => exact tame_throwCrash _
            | some i => exact tame_pure _
        | cons arg0 rest =>
            apply tame_bind (tame_handle_expression _); intro v
            apply tame_bind (tame_pure _); intro members
            apply tame_bind (tame_kwMembers _ _); intro members'
            cases st'.lastIdx with
            | none => exact tame_throwCrash _
            | some i => exact tame_pure _
      cases func <;>
        first
          | · apply tame_bind (tame_handle_expression _); intro ref
              apply tame_bind (tame_pure _)
              intro p
              exact tail p
          | · apply tame_bind (tame_log _ _); intro _
              apply tame_bind (tame_pure _)
              intro p
              exact tail p
  all_goals exact tame_throwCrash _

theorem tame_decorators_loop (st : DecState) :
    ∀ l : List PyExpr, Tame (decorators_loop st l) := by
  intro l
  induction l generalizing st with
  | nil => exact tame_pure _
  | cons d rest ih =>
      apply tame_bind (tame_handle_decorator st d); intro st'
      exact ih st'

theorem tame_compoundChildren {recStmt : RecStmt}
    (hrec : ∀ s, Tame (recStmt s)) :
    ∀ l : List PyStmt,
      Tame (make_compound_statement.compoundChildren recStmt l)
  | [] => tame_pure _
  | s :: rest =>
      tame_bind (hrec s) fun r =>
        tame_bind (tame_compoundChildren hrec rest) fun _ => tame_pure _

theorem tame_make_compound {recStmt : RecStmt}
    (hrec : ∀ s, Tame (recStmt s)) (stmts : List PyStmt) :
    Tame (make_compound_statement recStmt stmts) := by
  unfold make_compound_statement
  cases stmts with
  | nil => exact tame_bind (tame_log _ _) fun _ => tame_pure _
  | cons s rest =>
      apply tame_bind (tame_compoundChildren hrec (s :: rest)); intro ch
      exact tame_pure _

theorem tame_handle_for {recStmt : RecStmt} (hrec : ∀ s, Tame (recStmt s))
    (stmt : PyStmt) : Tame (handle_for recStmt stmt) := by
  unfold handle_for
  cases hfp : handle_for.forParts stmt with
  | none => exact tame_bind (tame_log _ _) fun _ => tame_pure _
  | some p =>
      obtain ⟨isAsync, target, iter, body, orelse⟩ := p
      apply tame_ite
      all_goals
        first
          | apply tame_bind (tame_log _ _)
          | apply tame_bind (tame_pure _)
        intro _
        apply tame_bind (tame_handle_expression _); intro it
        apply tame_bind (tame_handle_expression _); intro tg
        apply tame_bind (tame_resolveReference _); intro resolved
        cases resolved
        case none =>
          apply tame_bind (tame_addDeclaration _); intro _
          apply tame_bind (tame_pure _); intro lv
          apply tame_bind (tame_make_compound hrec body); intro b
          apply tame_bind (tame_ite _ (tame_log _ _) (tame_pure _))
          intro _
          exact tame_pure _
        case some d =>
          apply tame_bind (tame_pure _); intro lv
          apply tame_bind (tame_make_compound hrec body); intro b
          apply tame_bind (tame_ite _ (tame_log _ _) (tame_pure _))
          intro _
          exact tame_pure _

theorem tame_class_bases_go (ns : String) :
    ∀ l : List PyExpr, Tame (class_bases_loop.go ns l)
  | [] => tame_pure _
  | b :: rest => by
      unfold class_bases_loop.go
      cases b
      case name id ty =>
        apply tame_bind (tame_log _ _); intro _
        apply tame_bind (tame_class_bases_go ns rest); intro _
        exact tame_pure _
      all_goals
        exact tame_bind (tame_log _ _) fun _ => tame_class_bases_go ns rest

theorem tame_class_bases_loop (bases : List PyExpr) :
    Tame (class_bases_loop bases) := by
  unfold class_bases_loop
  apply tame_bind tame_read; intro c
  exact tame_class_bases_go _ bases

/-- Beta step for a run of a literal state function. -/
theorem M.run_beta (f : Ctx → MRes α) (c : Ctx) :
    M.run (fun c' => f c') c = f c := rfl

/-- Popping with a known innermost frame. -/
theorem run_leaveScope_cons (d : Decl) (c : Ctx) (fr : Frame)
    (rest : List Frame) (h : c.frames = fr :: rest) :
    (leaveScope d).run c =
      .ok fr.container
        { c with events := c.events ++ [.leaveScope d.name],
                 frames := rest } := by
  simp [run_leaveScope, h]

/-- Raw-application form of `run_leaveScope_cons`. -/
theorem app_leaveScope_cons (d : Decl) (c : Ctx) (fr : Frame)
    (rest : List Frame) (h : c.frames = fr :: rest) :
    leaveScope d c =
      .ok fr.container
        { c with events := c.events ++ [.leaveScope d.name],
                 frames := rest } :=
  run_leaveScope_cons d c fr rest h

/-- Transitivity of trace extension. -/
theorem exAppend_trans {α : Type} {a b c : List α}
    (h₁ : ∃ Δ, b = a ++ Δ) (h₂ : ∃ Δ, c = b ++ Δ) : ∃ Δ, c = a ++ Δ := by
  obtain ⟨d1, rfl⟩ := h₁
  obtain ⟨d2, rfl⟩ := h₂
  exact ⟨d1 ++ d2, by rw [List.append_assoc]⟩

/-- A preserved nonempty stack splits into preserved head and tail. -/
theorem framesPres_cons {fr : Frame} {t l' : List Frame}
    (h : FramesPres (fr :: t) l') :
    ∃ fr' t', l' = fr' :: t' ∧ FramePres fr fr' ∧ FramesPres t t' := by
  cases l' with
  | nil => exact h.elim
  | cons a b => exact ⟨a, b, rfl, h.1, h.2⟩

/-- Registering a declaration on the innermost frame preserves the stack. -/
theorem framesPres_addDeclFrames (d : Decl) {l l' : List Frame}
    (h : FramesPres l l') :
    FramesPres l (addDeclFrames d l') := by
  cases l with
  | nil =>
      cases l' with
      | nil => trivial
      | cons a b => exact h.elim
  | cons fr t =>
      obtain ⟨fr', t', rfl, hf, ht⟩ := framesPres_cons h
      rw [addDeclFrames_cons]
      refine ⟨⟨hf.1, ?_⟩, ht⟩
      obtain ⟨Δ, hΔ⟩ := hf.2
      exact ⟨Δ ++ [d], by simp [hΔ]⟩

/-- Like `Tame`, but only the tail below the innermost frame is
constrained: the computation may mutate the frame it owns. -/
def TameTail (m : M α) : Prop :=
  ∀ c a c' fr t, c.frames = fr :: t → m.run c = .ok a c' →
    (∃ Δ, c'.events = c.events ++ Δ) ∧
    ∃ fr' t', c'.frames = fr' :: t' ∧ FramesPres t t'

theorem tame_to_tail {m : M α} (hm : Tame m) : TameTail m := by
  intro c a c' fr t hfr h
  obtain ⟨hev, hp⟩ := hm c a c' h
  rw [hfr] at hp
  obtain ⟨fr', t', heq, _, ht⟩ := framesPres_cons hp
  exact ⟨hev, fr', t', heq, ht⟩

/-- Peel one `Tame` component off a successful bind. -/
theorem peel_tame {m : M α} {k : α → M β} (hm : Tame m) {c : Ctx} {b : β}
    {c' : Ctx} (h : (m >>= k).run c = .ok b c') :
    ∃ a c₁, m.run c = .ok a c₁ ∧ (k a).run c₁ = .ok b c' ∧
      (∃ Δ, c₁.events = c.events ++ Δ) ∧ FramesPres c.frames c₁.frames :=
  by
  have hb : (m >>= k).run c =
      match m.run c with
      | .ok a c₁ => (k a).run c₁
      | .err e c₁ => .err e c₁ := rfl
  rw [hb] at h
  cases hm1 : m.run c with
  | ok a c₁ =>
      rw [hm1] at h
      obtain ⟨hev, hp⟩ := hm c a c₁ hm1
      exact ⟨a, c₁, rfl, h, hev, hp⟩
  | err e c₁ =>
      rw [hm1] at h
      cases h

/-- Peel one `Tame` component, splitting the preserved stack at a known
head. -/
theorem peel_tame_cons {m : M α} {k : α → M β} (hm : Tame m) {c : Ctx}
    {b : β} {c' : Ctx} {fr : Frame} {t : List Frame}
    (hfr : c.frames = fr :: t) (h : (m >>= k).run c = .ok b c') :
    ∃ a c₁ fr₁ t₁, (k a).run c₁ = .ok b c' ∧
      (∃ Δ, c₁.events = c.events ++ Δ) ∧ c₁.frames = fr₁ :: t₁ ∧
      FramesPres t t₁ := by
  obtain ⟨a, c₁, h₁, h, hev, hp⟩ := peel_tame hm h
  rw [hfr] at hp
  obtain ⟨fr₁, t₁, heq, _, ht⟩ := framesPres_cons hp
  exact ⟨a, c₁, fr₁, t₁, h, hev, heq, ht⟩

/-- Peel one `TameTail` component off a successful bind. -/
theorem peel_tail {m : M α} {k : α → M β} (hm : TameTail m) {c : Ctx}
    {b : β} {c' : Ctx} {fr : Frame} {t : List Frame}
    (hfr : c.frames = fr :: t) (h : (m >>= k).run c = .ok b c') :
    ∃ a c₁ fr₁ t₁, (k a).run c₁ = .ok b c' ∧
      (∃ Δ, c₁.events = c.events ++ Δ) ∧ c₁.frames = fr₁ :: t₁ ∧
      FramesPres t t₁ := by
  have hb : (m >>= k).run c =
      match m.run c with
      | .ok a c₁ => (k a).run c₁
      | .err e c₁ => .err e c₁ := rfl
  rw [hb] at h
  cases hm1 : m.run c with
  | ok a c₁ =>
      rw [hm1] at h
      obtain ⟨hev, fr₁, t₁, heq, ht⟩ := hm c a c₁ fr t hfr hm1
      exact ⟨a, c₁, fr₁, t₁, h, hev, heq, ht⟩
  | err e c₁ =>
      rw [hm1] at h
      cases h

/-- The receiver-and-parameter phase owns the innermost frame and preserves
the tail. -/
theorem tail_params_phase (record : Option Decl) (args : PyArguments)
    (f : Decl) : TameTail (function_params_phase record args f) := by
  cases record with
  | none =>
      exact tame_to_tail
        (tame_bind (tame_handle_arguments_loop _) fun _ => tame_pure _)
  | some r =>
      intro c a c' fr t hfr h
      rcases hargs : args.args with _ | ⟨recv, restArgs⟩ <;>
        rw [function_params_phase, hargs] at h
      · obtain ⟨u1, c₁, h₁, h, hev₁, hp₁⟩ := peel_tame (tame_log _ _) h
        obtain ⟨f', c₂, h₂, h, hev₂, hp₂⟩ := peel_tame (tame_pure _) h
        obtain ⟨u3, c₃, h₃, h, hev₃, hp₃⟩ :=
          peel_tame (tame_handle_arguments_loop _) h
        cases h
        refine ⟨exAppend_trans hev₁ (exAppend_trans hev₂ hev₃), ?_⟩
        have hp' : FramesPres (fr :: t) c'.frames := by
          rw [← hfr]; exact (hp₁.trans_frames hp₂).trans_frames hp₃
        obtain ⟨fr', t', heq, _, ht⟩ := framesPres_cons hp'
        exact ⟨fr', t', heq, ht⟩
      · simp only [M.run_bind, run_modifyTopContainer, run_addDeclaration,
          addDeclFrames_cons, M.run_pure, hfr] at h
        split at h
        · rename_i a1 c1 heq
          cases h
          obtain ⟨hev, hp⟩ := tame_handle_arguments_loop _ _ _ _ heq
          constructor
          · obtain ⟨Δ, hΔ⟩ := hev
            refine ⟨[Event.addDecl
              (DeclarationBuilderKt.newVariableDeclaration recv.arg
                (NodeBuilderKt.parseType r.name) ("arg " ++ recv.arg)
                false).name] ++ Δ, ?_⟩
            rw [hΔ]
            simp [List.append_assoc]
          · obtain ⟨fr', t', heq', _, ht⟩ := framesPres_cons hp
            exact ⟨fr', t', heq', ht⟩
        · cases h

theorem tame_function_body_phase {recStmt : RecStmt}
    (hrec : ∀ s, Tame (recStmt s)) (body : List PyStmt) (f : Decl) :
    Tame (function_body_phase recStmt body f) := by
  unfold function_body_phase
  cases body with
  | nil => exact tame_pure _
  | cons s rest =>
      exact tame_bind (tame_make_compound hrec _) fun b => tame_pure _

/-- The function lowerer balances its frame and preserves the discipline:
it pushes one frame, works inside it, pops it, and registers the
declaration in the caller's frame. -/
theorem tame_handle_function_or_method {recStmt : RecStmt}
    (hrec : ∀ s, Tame (recStmt s)) (node : PyStmt) (record : Option Decl) :
    Tame (handle_function_or_method recStmt node record) := by
  cases hfp : handle_function_or_method.functionParts node with
  | none =>
      intro c a c' h
      rw [handle_function_or_method, hfp] at h
      exact (tame_bind (tame_log _ _) fun _ => tame_pure _) c a c' h
  | some p =>
      obtain ⟨isAsync, name, args, body, decs, rets⟩ := p
      intro c a c' h
      rw [handle_function_or_method, hfp] at h
      obtain ⟨u1, c1, h1, h, hev1, hp1⟩ :=
        peel_tame (tame_ite _ (tame_log _ _) (tame_pure _)) h
      obtain ⟨u2, c2, h2, h, hev2, hp2⟩ := peel_tame (tame_log _ _) h
      simp only [M.run_bind, run_enterScope] at h
      obtain ⟨u3, c3, fr3, t3, h, hev3, hsh3, hp3⟩ :=
        peel_tame_cons (tame_diag_each _ _) rfl h
      obtain ⟨f4, c4, fr4, t4, h, hev4, hsh4, hp4⟩ :=
        peel_tail (tail_params_phase record args _) hsh3 h
      obtain ⟨u5, c5, fr5, t5, h, hev5, hsh5, hp5⟩ :=
        peel_tame_cons (tame_ite _ (tame_log _ _) (tame_pure _)) hsh4 h
      obtain ⟨u6, c6, fr6, t6, h, hev6, hsh6, hp6⟩ :=
        peel_tame_cons (tame_diag_each _ _) hsh5 h
      obtain ⟨u7, c7, fr7, t7, h, hev7, hsh7, hp7⟩ :=
        peel_tame_cons (tame_diag_each _ _) hsh6 h
      obtain ⟨u8, c8, fr8, t8, h, hev8, hsh8, hp8⟩ :=
        peel_tame_cons (tame_ite _ (tame_log _ _) (tame_pure _)) hsh7 h
      obtain ⟨u9, c9, fr9, t9, h, hev9, hsh9, hp9⟩ :=
        peel_tame_cons (tame_diag_each _ _) hsh8 h
      obtain ⟨f10, c10, fr10, t10, h, hev10, hsh10, hp10⟩ :=
        peel_tame_cons (tame_function_body_phase hrec body f4) hsh9 h
      obtain ⟨st, c11, fr11, t11, h, hev11, hsh11, hp11⟩ :=
        peel_tame_cons (tame_decorators_loop _ _) hsh10 h
      obtain ⟨u12, c12, fr12, t12, h, hev12, hsh12, hp12⟩ :=
        peel_tame_cons (tame_ite _ (tame_log _ _) (tame_pure _)) hsh11 h
      simp only [M.run_bind, run_addDeclaration, M.run_pure] at h
      simp only [M.run_beta] at h
      rw [app_leaveScope_cons _ _ _ _ hsh12] at h
      simp only [] at h
      cases h
      constructor
      · exact exAppend_trans hev1 <| exAppend_trans hev2 <|
          exAppend_trans ⟨_, rfl⟩ <| exAppend_trans hev3 <|
          exAppend_trans hev4 <| exAppend_trans hev5 <|
          exAppend_trans hev6 <| exAppend_trans hev7 <|
          exAppend_trans hev8 <| exAppend_trans hev9 <|
          exAppend_trans hev10 <| exAppend_trans hev11 <|
          exAppend_trans hev12 <| exAppend_trans ⟨_, rfl⟩ ⟨_, rfl⟩
      · have htail : FramesPres c.frames t12 :=
          ((hp1.trans_frames hp2).trans_frames hp3).trans_frames <| hp4.trans_frames <| hp5.trans_frames <|
            hp6.trans_frames <| hp7.trans_frames <| hp8.trans_frames <| hp9.trans_frames <|
            hp10.trans_frames <| hp11.trans_frames hp12
        exact framesPres_addDeclFrames _ htail

/-- Mutating the innermost container with a known innermost frame. -/
theorem run_modifyTopContainer_cons (f : Decl → Decl) (c : Ctx)
    (fr : Frame) (rest : List Frame) (h : c.frames = fr :: rest) :
    (modifyTopContainer f).run c =
      .ok ()
        { c with
          frames := { fr with container := fr.container.map f } :: rest } :=
  by simp [run_modifyTopContainer, h]

/-- One class-body member owns the class frame and preserves the frames
below it. -/
theorem tail_class_body_member {recStmt : RecStmt}
    (hrec : ∀ s, Tame (recStmt s)) (s : PyStmt) :
    TameTail (class_body_member recStmt s) := by
  cases s
  case functionDef n ar b d r =>
    intro c a c' fr t hfr h
    obtain ⟨cls, c₁, fr₁, t₁, h, hev₁, hsh₁, hp₁⟩ :=
      peel_tame_cons tame_getTopContainer hfr h
    obtain ⟨m, c₂, fr₂, t₂, h, hev₂, hsh₂, hp₂⟩ :=
      peel_tame_cons (tame_handle_function_or_method hrec _ _) hsh₁ h
    simp only [run_modifyTopContainer_cons _ _ _ _ hsh₂] at h
    cases h
    exact ⟨exAppend_trans hev₁ hev₂, _, t₂, rfl, hp₁.trans_frames hp₂⟩
  all_goals
    intro c a c' fr t hfr h
    obtain ⟨handled, c₁, fr₁, t₁, h, hev₁, hsh₁, hp₁⟩ :=
      peel_tame_cons (hrec _) hfr h
    simp only [run_modifyTopContainer_cons _ _ _ _ hsh₁] at h
    cases h
    exact ⟨hev₁, _, t₁, rfl, hp₁⟩

/-- The class-body loop preserves the frames below the class frame. -/
theorem tail_class_body_loop {recStmt : RecStmt}
    (hrec : ∀ s, Tame (recStmt s)) :
    ∀ body : List PyStmt, TameTail (class_body_loop recStmt body)
  | [] => tame_to_tail (tame_pure _)
  | s :: rest => by
      intro c a c' fr t hfr h
      obtain ⟨u, c₁, fr₁, t₁, h, hev₁, hsh₁, hp₁⟩ :=
        peel_tail (tail_class_body_member hrec s) hfr h
      obtain ⟨hev₂, fr₂, t₂, hsh₂, hp₂⟩ :=
        tail_class_body_loop hrec rest c₁ a c' fr₁ t₁ hsh₁ h
      exact ⟨exAppend_trans hev₁ hev₂, fr₂, t₂, hsh₂, hp₁.trans_frames hp₂⟩

theorem tame_import_aliases_loop :
    ∀ names : List PyAlias,
      Tame (handle_statement_impl.import_aliases_loop names)
  | [] => tame_pure _
  | a :: rest =>
      tame_bind (tame_addDeclaration _) fun _ =>
        tame_bind (tame_import_aliases_loop rest) fun _ => tame_pure _

/-- The statement dispatcher preserves the frame discipline. -/
theorem tame_handle_statement_impl {recStmt : RecStmt}
    (hrec : ∀ s, Tame (recStmt s)) (stmt : PyStmt) :
    Tame (handle_statement_impl recStmt stmt) := by
  cases stmt
  case functionDef n ar b d r =>
    exact tame_bind (tame_handle_function_or_method hrec _ _) fun _ =>
      tame_pure _
  case asyncFunctionDef n ar b d r =>
    exact tame_bind (tame_handle_function_or_method hrec _ _) fun _ =>
      tame_pure _
  case classDef n bases kws body decs =>
    intro c a c' h
    rw [handle_statement_impl] at h
    obtain ⟨bts, c1, h1, h, hev1, hp1⟩ :=
      peel_tame (tame_class_bases_loop _) h
    simp only [M.run_bind, run_enterScope] at h
    obtain ⟨u2, c2, fr2, t2, h, hev2, hsh2, hp2⟩ :=
      peel_tame_cons (tame_diag_each _ _) rfl h
    obtain ⟨u3, c3, fr3, t3, h, hev3, hsh3, hp3⟩ :=
      peel_tail (tail_class_body_loop hrec body) hsh2 h
    obtain ⟨u4, c4, fr4, t4, h, hev4, hsh4, hp4⟩ :=
      peel_tame_cons (tame_diag_each _ _) hsh3 h
    simp only [M.run_bind, run_addDeclaration, M.run_pure] at h
    simp only [M.run_beta] at h
    rw [app_leaveScope_cons _ _ _ _ hsh4] at h
    simp only [] at h
    cases h
    constructor
    · exact exAppend_trans hev1 <| exAppend_trans ⟨_, rfl⟩ <|
        exAppend_trans hev2 <| exAppend_trans hev3 <|
        exAppend_trans hev4 <| exAppend_trans ⟨_, rfl⟩ ⟨_, rfl⟩
    · have htail : FramesPres c.frames t4 :=
        hp1.trans_frames <| hp2.trans_frames <| hp3.trans_frames hp4
      exact framesPres_addDeclFrames _ htail
  case ret value =>
    cases value with
    | some v =>
        apply tame_bind (tame_handle_expression _); intro e
        apply tame_bind (tame_pure _); intro r
        exact tame_pure _
    | none =>
        apply tame_bind (tame_pure _); intro r
        exact tame_pure _
  case delete => exact tame_bind (tame_log _ _) fun _ => tame_pure _
  case assign targets value => exact tame_handle_assign _
  case augAssign t o v => exact tame_handle_assign _
  case annAssign t an v => exact tame_handle_assign _
  case forStmt t i b o => exact tame_handle_for hrec (.forStmt t i b o)
  case asyncFor t i b o => exact tame_handle_for hrec (.asyncFor t i b o)
  case whileStmt test body orelse =>
    apply tame_bind (tame_handle_expression _); intro e
    apply tame_bind (tame_make_compound hrec _); intro b
    apply tame_bind (tame_ite _ (tame_log _ _) (tame_pure _)); intro _
    exact tame_pure _
  case ifStmt test body orelse =>
    apply tame_bind (tame_handle_expression _); intro e
    apply tame_bind (tame_make_compound hrec _); intro b
    cases orelse with
    | nil =>
        apply tame_bind (tame_pure _); intro eb
        exact tame_pure _
    | cons s rest =>
        apply tame_bind (tame_make_compound hrec _); intro eo
        apply tame_bind (tame_pure _); intro eb
        exact tame_pure _
  case withStmt => exact tame_bind (tame_log _ _) fun _ => tame_pure _
  case asyncWith => exact tame_bind (tame_log _ _) fun _ => tame_pure _
  case raiseStmt => exact tame_bind (tame_log _ _) fun _ => tame_pure _
  case assertStmt => exact tame_bind (tame_log _ _) fun _ => tame_pure _
  case importStmt names =>
    exact tame_bind (tame_import_aliases_loop names) fun _ => tame_pure _
  case importFrom m names =>
    apply tame_bind (tame_log _ _); intro _
    exact tame_bind (tame_import_aliases_loop names) fun _ => tame_pure _
  case globalStmt => exact tame_bind (tame_log _ _) fun _ => tame_pure _
  case nonlocalStmt => exact tame_bind (tame_log _ _) fun _ => tame_pure _
  case exprStmt v =>
    exact tame_bind (tame_handle_expression _) fun _ => tame_pure _
  case pass => exact tame_pure _
  case brk => exact tame_pure _
  case cont => exact tame_bind (tame_log _ _) fun _ => tame_pure _
  case tryStmt body handlers orelse finalbody =>
    apply tame_bind (tame_make_compound hrec _); intro tb
    apply tame_bind (tame_make_compound hrec _); intro fb
    apply tame_bind (tame_ite _ (tame_log _ _) (tame_pure _)); intro _
    apply tame_bind (tame_ite _ (tame_log _ _) (tame_pure _)); intro _
    exact tame_pure _

/-- The dispatcher at any fuel preserves the frame discipline. -/
theorem tame_handle_statement :
    ∀ (fuel : Nat) (s : PyStmt), Tame (handle_statement fuel s)
  | 0, _ => tame_throwCrash _
  | fuel + 1, s =>
      tame_bind (tame_log _ _) fun _ =>
        tame_bind
          (tame_handle_statement_impl (tame_handle_statement fuel) s)
          fun _ => tame_bind (tame_log _ _) fun _ => tame_pure _

/-! Projection lemmas for built declarations. -/

@[simp]
theorem Decl.kind_base (k : DeclKind) (n : String) (t : PyTy) (c : String) :
    (Decl.base k n t c).kind = k := rfl

@[simp]
theorem Decl.name_base (k : DeclKind) (n : String) (t : PyTy) (c : String) :
    (Decl.base k n t c).name = n := rfl

@[simp]
theorem Decl.ty_base (k : DeclKind) (n : String) (t : PyTy) (c : String) :
    (Decl.base k n t c).ty = t := rfl

@[simp]
theorem Decl.kind_withInitializer (d : Decl) (i : Option GExpr) :
    (d.withInitializer i).kind = d.kind := by cases d; rfl

@[simp]
theorem Decl.name_withInitializer (d : Decl) (i : Option GExpr) :
    (d.withInitializer i).name = d.name := by cases d; rfl

@[simp]
theorem Decl.ty_withInitializer (d : Decl) (i : Option GExpr) :
    (d.withInitializer i).ty = d.ty := by cases d; rfl

@[simp]
theorem Decl.initializer_withInitializer (d : Decl) (i : Option GExpr) :
    (d.withInitializer i).initializer = i := by cases d; rfl

@[simp]
theorem Decl.name_fieldBuilder (n : String) (t : PyTy) (c : String)
    (i : Option GExpr) (b : Bool) :
    (DeclarationBuilderKt.newFieldDeclaration n t c i b).name = n := rfl

@[simp]
theorem Decl.name_varBuilder (n : String) (t : PyTy) (c : String)
    (b : Bool) :
    (DeclarationBuilderKt.newVariableDeclaration n t c b).name = n := rfl

/-! Projection lemmas for function builders and updaters. -/

@[simp]
theorem Decl.name_funBuilder (n c : String) :
    (DeclarationBuilderKt.newFunctionDeclaration n c).name = n := rfl

@[simp]
theorem Decl.kind_funBuilder (n c : String) :
    (DeclarationBuilderKt.newFunctionDeclaration n c).kind = .function :=
  rfl

@[simp]
theorem Decl.receiver_funBuilder (n c : String) :
    (DeclarationBuilderKt.newFunctionDeclaration n c).receiver = none := rfl

@[simp]
theorem Decl.name_methBuilder (n c : String) (b : Bool) (r : Decl) :
    (DeclarationBuilderKt.newMethodDeclaration n c b r).name = n := rfl

@[simp]
theorem Decl.kind_methBuilder (n c : String) (b : Bool) (r : Decl) :
    (DeclarationBuilderKt.newMethodDeclaration n c b r).kind = .method :=
  rfl

@[simp]
theorem Decl.name_ctorBuilder (n c : String) (r : Decl) :
    (DeclarationBuilderKt.newConstructorDeclaration n c r).name = n := rfl

@[simp]
theorem Decl.kind_ctorBuilder (n c : String) (r : Decl) :
    (DeclarationBuilderKt.newConstructorDeclaration n c r).kind =
      .constructor := rfl

@[simp]
theorem Decl.kind_withReceiver (d : Decl) (r : Option Decl) :
    (d.withReceiver r).kind = d.kind := by cases d; rfl

@[simp]
theorem Decl.name_withReceiver (d : Decl) (r : Option Decl) :
    (d.withReceiver r).name = d.name := by cases d; rfl

@[simp]
theorem Decl.kind_withBody (d : Decl) (b : Option GStmt) :
    (d.withBody b).kind = d.kind := by cases d; rfl

@[simp]
theorem Decl.name_withBody (d : Decl) (b : Option GStmt) :
    (d.withBody b).name = d.name := by cases d; rfl

@[simp]
theorem Decl.receiver_withBody (d : Decl) (b : Option GStmt) :
    (d.withBody b).receiver = d.receiver := by cases d; rfl

@[simp]
theorem Decl.kind_withAnnots (d : Decl) (a : List Annot) :
    (d.withAnnots a).kind = d.kind := by cases d; rfl

@[simp]
theorem Decl.name_withAnnots (d : Decl) (a : List Annot) :
    (d.withAnnots a).name = d.name := by cases d; rfl

@[simp]
theorem Decl.receiver_withAnnots (d : Decl) (a : List Annot) :
    (d.withAnnots a).receiver = d.receiver := by cases d; rfl

/-- Peel one component off a successful bind, with no invariant payload. -/
theorem peel_any {m : M α} {k : α → M β} {c : Ctx} {b : β} {c' : Ctx}
    (h : (m >>= k).run c = .ok b c') :
    ∃ a c₁, m.run c = .ok a c₁ ∧ (k a).run c₁ = .ok b c' := by
  have hb : (m >>= k).run c =
      match m.run c with
      | .ok a c₁ => (k a).run c₁
      | .err e c₁ => .err e c₁ := rfl
  rw [hb] at h
  cases hm1 : m.run c with
  | ok a c₁ => rw [hm1] at h; exact ⟨a, c₁, rfl, h⟩
  | err e c₁ => rw [hm1] at h; cases h

/-- The unsupported-shape diagnostic wrapped in a conditional: it only adds
a diagnostic. -/
theorem run_diag_ite (b : Bool) (msg : String) (lvl : Level) (c : Ctx) :
    (if b then log_with_loc msg lvl else (Pure.pure () : M Unit)).run c =
      .ok ()
        { c with
          diags := if b then c.diags ++ [⟨msg, lvl⟩] else c.diags } := by
  cases b <;> simp

/-- `diag_each` only appends diagnostics. -/
theorem run_diag_each (msg : String) (l : List α) (c : Ctx) :
    (diag_each msg l).run c =
      .ok ()
        { c with
          diags := c.diags ++ l.map fun _ => (⟨msg, .error⟩ : Diag) } := by
  induction l generalizing c with
  | nil => cases c; simp [diag_each]
  | cons x rest ih =>
      simp [diag_each, M.run_bind, run_log, ih, List.append_assoc]

/-- A successful `handle_argument` appends exactly the registration of the
parameter to the trace. -/
theorem handle_argument_events (a : PyArg) (c : Ctx) (p : Decl) (c' : Ctx)
    (h : (handle_argument a).run c = .ok p c') :
    c'.events = c.events ++ [.addDecl a.arg] := by
  rcases ha : a.annot with _ | e
  · rw [handle_argument, ha] at h
    simp only [M.run_bind, run_log, M.run_pure, run_addDeclaration] at h
    cases h
    rfl
  · cases e <;> rw [handle_argument, ha] at h <;>
      simp only [M.run_bind, run_log, M.run_pure, run_addDeclaration,
        M.run_throwCrash] at h
    case name id ty =>
      cases h
      rfl
    all_goals cases h

/-- A successful run of the positional-parameter loop appends exactly one
registration event per parameter. -/
theorem handle_arguments_loop_events :
    ∀ (l : List PyArg) (c : Ctx) (u : Unit) (c' : Ctx),
      (handle_arguments_loop l).run c = .ok u c' →
      c'.events = c.events ++ l.map fun x => Event.addDecl x.arg := by
  intro l
  induction l with
  | nil =>
      intro c u c' h
      cases h
      simp
  | cons a rest ih =>
      intro c u c' h
      obtain ⟨p, c₁, h₁, h⟩ := peel_any (m := handle_argument a) h
      have e₁ := handle_argument_events a c p c₁ h₁
      have e₂ := ih c₁ u c' h
      rw [e₂, e₁]
      simp [List.append_assoc]

/-- The positional parameters actually lowered: all of them for a free
function, all but the receiver for a method. -/
def effectiveArgs (record : Option Decl) (args : PyArguments) :
    List PyArg :=
  match record with
  | some _ => args.args.drop 1
  | none => args.args

/-- Shape of a successful receiver-and-parameter phase: the declaration
keeps its kind and name (gaining at most a receiver, and none at all for a
free function), and the trace gains a registration event for every
effective parameter. -/
theorem params_phase_shape (record : Option Decl) (args : PyArguments)
    (f : Decl) (c : Ctx) (f' : Decl) (c' : Ctx)
    (h : (function_params_phase record args f).run c = .ok f' c') :
    f'.kind = f.kind ∧ f'.name = f.name ∧
    (record = none → f' = f) ∧
    ∃ E, c'.events = c.events ++ E ∧
      ∀ a ∈ effectiveArgs record args, Event.addDecl a.arg ∈ E := by
  cases record with
  | none =>
      rw [function_params_phase] at h
      obtain ⟨u, c₁, h₁, h⟩ := peel_any (m := handle_arguments_loop _) h
      cases h
      have e₁ := handle_arguments_loop_events _ _ _ _ h₁
      exact ⟨rfl, rfl, fun _ => rfl,
        args.args.map (fun x => Event.addDecl x.arg), e₁,
        fun a ha => List.mem_map_of_mem _ ha⟩
  | some r =>
      rcases hargs : args.args with _ | ⟨recv, restArgs⟩ <;>
        rw [function_params_phase, hargs] at h
      · obtain ⟨u1, c1, h1, h⟩ := peel_any (m := log_with_loc _ _) h
        obtain ⟨f1, c2, h2, h⟩ := peel_any (m := Pure.pure f) h
        obtain ⟨u3, c3, h3, h⟩ := peel_any (m := handle_arguments_loop _) h
        cases h
        rw [M.run_pure] at h2
        cases h2
        rw [run_log] at h1
        cases h1
        have e₃ := handle_arguments_loop_events _ _ _ _ h3
        refine ⟨rfl, rfl, fun hc => Option.noConfusion hc, [], ?_, ?_⟩
        · rw [e₃]; simp
        · intro a ha
          simp [effectiveArgs, hargs] at ha
      · simp only [M.run_bind, run_modifyTopContainer, run_addDeclaration,
          M.run_pure, Decl.name_varBuilder] at h
        split at h
        · rename_i u3 c3 heq
          cases h
          have e₃ := handle_arguments_loop_events _ _ _ _ heq
          refine ⟨by simp, by simp, fun hc => Option.noConfusion hc,
            Event.addDecl recv.arg ::
              restArgs.map (fun x => Event.addDecl x.arg), ?_, ?_⟩
          · rw [e₃]
            simp [List.append_assoc]
          · intro a ha
            simp only [effectiveArgs, hargs, List.drop_one,
              List.tail_cons] at ha
            exact List.mem_cons_of_mem _ (List.mem_map_of_mem _ ha)
        · cases h

/-- Shape of a successful body phase: kind, name and receiver are kept. -/
theorem function_body_phase_shape (recStmt : RecStmt)
    (body : List PyStmt) (f : Decl) (c : Ctx) (f' : Decl) (c' : Ctx)
    (h : (function_body_phase recStmt body f).run c = .ok f' c') :
    f'.kind = f.kind ∧ f'.name = f.name ∧ f'.receiver = f.receiver := by
  cases body with
  | nil =>
      rw [function_body_phase] at h
      cases h
      exact ⟨rfl, rfl, rfl⟩
  | cons s rest =>
      rw [function_body_phase] at h
      · obtain ⟨b, c₁, h₁, h⟩ :=
          peel_any (m := make_compound_statement recStmt (s :: rest)) h
        cases h
        simp
      · simp

/-- A module-level context: one global frame, empty sinks. -/
def ctx0 : Ctx := ⟨[⟨none, []⟩], [], [], "mod"⟩

/-- A module-level context in which a variable `x` of type `int` is in
scope. -/
def ctxX : Ctx :=
  ⟨[⟨none, [Decl.base .variable "x" (.named "int") "x"]⟩], [], [], "mod"⟩

/-- An in-progress record declaration for the example class `Foo`. -/
def recFoo : Decl := Decl.base .record "Foo" .unknown "class Foo: ..."

/-- A context inside the class body of `Foo`: the record frame over the
global frame. -/
def ctxRec : Ctx := ⟨[⟨some recFoo, []⟩, ⟨none, []⟩], [], [], "mod"⟩

/-- A method `bar` of `Foo` whose receiver parameter is `self`. -/
def methBar : Decl :=
  (Decl.base .method "bar" .unknown "def bar(...): ...").withReceiver
    (some (Decl.base .variable "self" (.named "Foo") "self"))

/-- A context inside the body of method `bar` of class `Foo`. -/
def ctxMeth : Ctx :=
  ⟨[⟨some methBar, []⟩, ⟨some recFoo, []⟩, ⟨none, []⟩], [], [], "mod"⟩

/-- C5.  The claim says every augmented assignment is handled by the
dedicated augmented-assignment branch, which builds an operator derived from
the statement's operator code.  The source guards that branch with
`stmt is ast.AugAssign`, an identity comparison between the statement
instance and the class object, which is false for every instance; the guard
is embedded as `stmtIsClassAugAssign`.  On the concrete input `x += 1` with
`x` in scope, the lowering therefore takes the generic path and returns a
plain `"="` binary operator instead of one built from the operator code
(`"+"`), which this theorem evaluates. -/
theorem C5_augassign_branch_unreachable :
    stmtIsClassAugAssign
        (.augAssign (.name "x" (.named "int")) .add
          (.constant "1" (.named "int"))) = false ∧
    handle_operator_code .add = "+" ∧
    ∃ c',
      (handle_assign
          (.augAssign (.name "x" (.named "int")) .add
            (.constant "1" (.named "int")))).run ctxX =
        .ok (.stmt (.ofExpr
          (.binop "=" (some (.ref "x" (.named "int") "x" none))
            (some (.other "1" (.named "int") "1")) "x ?= 1"))) c' :=
  ⟨rfl, rfl, ⟨_, rfl⟩⟩

/-- C6: a simple assignment with two or more targets produces the
"unimplemented" diagnostic and a bare placeholder `"="` binary operator with
neither operand set; the frame stack — and with it every scope's
declaration list — is untouched, so nothing is synthesized or registered. -/
theorem C6_multi_target_assign_placeholder (targets : List PyExpr)
    (value : PyExpr) (c : Ctx) (h : 2 ≤ targets.length) :
    ∃ c',
      (handle_assign (.assign targets value)).run c =
        .ok (.stmt (.ofExpr (.binop "=" none none
          (get_src_code (.assign targets value))))) c' ∧
      c'.frames = c.frames ∧
      (⟨NOT_IMPLEMENTED_MSG, .error⟩ : Diag) ∈ c'.diags := by
  have hne : (targets.length != 1) = true := by
    simp only [bne_iff_ne, ne_eq]
    omega
  have hrun :
      (handle_assign (.assign targets value)).run c =
        .ok (.stmt (.ofExpr (.binop "=" none none
          (get_src_code (.assign targets value)))))
          { c with diags := c.diags ++
              [⟨"Start handle_assign", .trace⟩,
               ⟨NOT_IMPLEMENTED_MSG, .error⟩,
               ⟨"End handle_assign", .trace⟩] } := by
    simp only [handle_assign, handle_assign_impl, stmtIsClassAugAssign,
      handle_assign_impl.isMultiTargetAssign, hne, Bool.false_eq_true,
      if_false, M.run_bind, run_log, M.run_pure,
      ExpressionBuilderKt.newBinaryOperator, List.append_assoc,
      List.cons_append, List.nil_append]
  exact ⟨_, hrun, rfl, by simp⟩

/-- C7.  The claim says a decorator of unrecognized shape yields a
diagnostic and no annotation while the function declaration is still
returned normally.  In the source, the unrecognized-shape branch (line 371)
only logs and leaves the local variable `annotation` unbound, and line 392
then calls `annotation.setMembers(members)`: when the offending decorator is
the first one, this raises `UnboundLocalError`, aborting the lowering with
the function's scope frame still on the stack.  The concrete input is
`def f(): pass` decorated with a call whose function is itself a call. -/
theorem C7_bad_decorator_crashes :
    ∃ c',
      (handle_function_or_method (handle_statement 3)
          (.functionDef "f" ⟨[], [], none, [], [], none, []⟩ [.pass]
            [.call (.call (.name "g" .unknown) [] [] .unknown) [] []
              .unknown]
            none)
          none).run ctx0 =
        .err .unboundLocal c' ∧
      (⟨NOT_IMPLEMENTED_MSG, .error⟩ : Diag) ∈ c'.diags ∧
      c'.frames.length = 2 := by
  refine ⟨_, rfl, ?_, rfl⟩
  decide

/-- A single-target extraction implies the multi-target test of line 515 is
false. -/
theorem assignParts_single (stmt : PyStmt) (t : PyExpr)
    (v? : Option PyExpr)
    (h : handle_assign_impl.assignParts stmt = some (t, v?)) :
    handle_assign_impl.isMultiTargetAssign stmt = false := by
  cases stmt <;>
    simp only [handle_assign_impl.assignParts,
      handle_assign_impl.isMultiTargetAssign] at h ⊢
  case assign targets value =>
    match targets, h with
    | [t'], _ => rfl

/-- C1: an assignment-like statement (simple with a single target,
augmented, or annotated) whose left-hand side lowers to a plain reference or
member access and resolves in the current scope comes back as a `"="`
binary operator whose left operand is the lowered left-hand side and whose
right operand is the lowered right-hand side when one is present; the frame
stack is returned untouched and the trace shows only expression lowering
and the resolution query, so no variable or field is synthesized or
registered. -/
theorem C1_resolved_assignment_rebinds (stmt : PyStmt) (target : PyExpr)
    (value? : Option PyExpr) (c : Ctx) (d : Decl)
    (hparts : handle_assign_impl.assignParts stmt = some (target, value?))
    (hshape : is_declared_reference (lowerPure target) = true ∨
      is_member_expression (lowerPure target) = true)
    (hres : c.resolve (lowerPure target) = some d) :
    ∃ c',
      (handle_assign stmt).run c =
        .ok (.stmt (.ofExpr (.binop "=" (some (lowerPure target))
          (value?.map lowerPure) (get_src_code stmt)))) c' ∧
      c'.frames = c.frames ∧
      c'.events = c.events ++
        (match value? with
         | some v => [.lowerExpr target, .lowerExpr v]
         | none => [.lowerExpr target]) ++
        [.resolveRef (lowerPure target).gname] := by
  have hmulti := assignParts_single stmt target value? hparts
  have hcond : (!is_declared_reference (lowerPure target) &&
      !is_member_expression (lowerPure target)) = false := by
    rcases hshape with h | h <;> simp [h]
  simp only [Ctx.resolve] at hres
  cases value? with
  | some v =>
      refine ⟨{ c with
        diags := c.diags ++ [⟨"Start handle_assign", .trace⟩,
          ⟨"End handle_assign", .trace⟩],
        events := c.events ++ [.lowerExpr target, .lowerExpr v,
          .resolveRef (lowerPure target).gname] }, ?_, rfl, by simp⟩
      simp only [handle_assign, handle_assign_impl, stmtIsClassAugAssign,
        Bool.false_eq_true, if_false, hmulti, hparts, M.run_bind, run_log,
        run_handle_expression, run_resolveReference, M.run_read, M.run_pure,
        hcond, Ctx.resolve, hres, List.append_assoc,
        List.cons_append, List.nil_append, Option.map_some']
  | none =>
      refine ⟨{ c with
        diags := c.diags ++ [⟨"Start handle_assign", .trace⟩,
          ⟨"End handle_assign", .trace⟩],
        events := c.events ++ [.lowerExpr target,
          .resolveRef (lowerPure target).gname] }, ?_, rfl, by simp⟩
      simp only [handle_assign, handle_assign_impl, stmtIsClassAugAssign,
        Bool.false_eq_true, if_false, hmulti, hparts, M.run_bind, run_log,
        run_handle_expression, run_resolveReference, M.run_read, M.run_pure,
        hcond, Ctx.resolve, hres, List.append_assoc,
        List.cons_append, List.nil_append, Option.map_none']

/-- Witness for C1: `x = 1` with `x` bound at module level rebinds. -/
theorem C1_witness :
    ∃ c',
      (handle_assign (.assign [.name "x" (.named "int")]
          (.constant "1" (.named "int")))).run ctxX =
        .ok (.stmt (.ofExpr (.binop "="
          (some (lowerPure (.name "x" (.named "int"))))
          ((some (PyExpr.constant "1" (.named "int"))).map lowerPure)
          (get_src_code (.assign [.name "x" (.named "int")]
            (.constant "1" (.named "int"))))))) c' ∧
      c'.frames = ctxX.frames ∧
      c'.events = ctxX.events ++
        (match (some (PyExpr.constant "1" (.named "int"))) with
         | some v => [.lowerExpr (.name "x" (.named "int")), .lowerExpr v]
         | none => [.lowerExpr (.name "x" (.named "int"))]) ++
        [.resolveRef (lowerPure (.name "x" (.named "int"))).gname] :=
  C1_resolved_assignment_rebinds
    (.assign [.name "x" (.named "int")] (.constant "1" (.named "int")))
    (.name "x" (.named "int")) (some (.constant "1" (.named "int"))) ctxX
    (Decl.base .variable "x" (.named "int") "x") rfl (Or.inl rfl) rfl

/-- A member expression is not a declared reference. -/
theorem member_not_declared (e : GExpr) (h : is_member_expression e = true) :
    is_declared_reference e = false := by
  cases e <;> simp_all [is_member_expression, is_declared_reference]

/-- C2: an assignment whose left-hand side fails to resolve while the stack
is inside a record but not inside a function yields a field declaration —
typed from the lowered right-hand side when one is present and unknown
otherwise — registered in the innermost frame; the result is the field
itself, never a variable. -/
theorem C2_unresolved_classbody_makes_field (stmt : PyStmt)
    (target : PyExpr) (value? : Option PyExpr) (c : Ctx) (fr : Frame)
    (rest : List Frame) (hframes : c.frames = fr :: rest)
    (hparts : handle_assign_impl.assignParts stmt = some (target, value?))
    (hshape : is_declared_reference (lowerPure target) = true ∨
      is_member_expression (lowerPure target) = true)
    (hres : c.resolve (lowerPure target) = none)
    (hrec : c.isInRecord = true) (hfun : c.isInFunction = false) :
    ∃ v c',
      (handle_assign stmt).run c = .ok (.decl v) c' ∧
      v.kind = .field ∧
      v.ty = (match value? with
              | some r => (lowerPure r).gtype
              | none => .unknown) ∧
      c'.frames = { fr with decls := fr.decls ++ [v] } :: rest := by
  have hmulti := assignParts_single stmt target value? hparts
  have hcond : (!is_declared_reference (lowerPure target) &&
      !is_member_expression (lowerPure target)) = false := by
    rcases hshape with h | h <;> simp [h]
  simp only [Ctx.resolve] at hres
  simp only [Ctx.isInRecord] at hrec
  simp only [Ctx.isInFunction] at hfun
  rw [hframes] at hres hrec hfun
  rcases hshape with hdr | hmem
  · cases value? with
    | some v =>
        have hrun :
            (handle_assign stmt).run c =
              .ok (.decl (DeclarationBuilderKt.newFieldDeclaration
                  (lowerPure target).gname (lowerPure v).gtype
                  (get_src_code stmt) (some (lowerPure v)) false))
                { c with
                  diags := c.diags ++ [⟨"Start handle_assign", .trace⟩,
                    ⟨"Could not resolve: creating a new field", .trace⟩,
                    ⟨"End handle_assign", .trace⟩]
                  events := c.events ++ [.lowerExpr target, .lowerExpr v,
                    .resolveRef (lowerPure target).gname,
                    .addDecl (lowerPure target).gname]
                  frames := { fr with decls := fr.decls ++
                    [DeclarationBuilderKt.newFieldDeclaration
                      (lowerPure target).gname (lowerPure v).gtype
                      (get_src_code stmt) (some (lowerPure v)) false] }
                    :: rest } := by
          simp only [handle_assign, handle_assign_impl,
            stmtIsClassAugAssign, Bool.false_eq_true, if_false, if_true,
            eq_self_iff_true, hmulti, hparts, M.run_bind, run_log,
            run_handle_expression, run_resolveReference, M.run_read,
            M.run_pure, hcond, Ctx.resolve, hres, Ctx.isInRecord,
            Ctx.isInFunction, hrec, hfun, Bool.not_false, Bool.and_self,
            Bool.not_true, Bool.false_and, Bool.true_and,
            hdr, run_addDeclaration, addDeclFrames_cons, hframes,
            Decl.name_fieldBuilder,
            List.append_assoc, List.cons_append, List.nil_append]
        exact ⟨_, _, hrun, rfl, rfl, rfl⟩
    | none =>
        have hrun :
            (handle_assign stmt).run c =
              .ok (.decl (DeclarationBuilderKt.newFieldDeclaration
                  (lowerPure target).gname .unknown
                  (get_src_code stmt) none false))
                { c with
                  diags := c.diags ++ [⟨"Start handle_assign", .trace⟩,
                    ⟨"Could not resolve: creating a new field", .trace⟩,
                    ⟨"End handle_assign", .trace⟩]
                  events := c.events ++ [.lowerExpr target,
                    .resolveRef (lowerPure target).gname,
                    .addDecl (lowerPure target).gname]
                  frames := { fr with decls := fr.decls ++
                    [DeclarationBuilderKt.newFieldDeclaration
                      (lowerPure target).gname .unknown
                      (get_src_code stmt) none false] }
                    :: rest } := by
          simp only [handle_assign, handle_assign_impl,
            stmtIsClassAugAssign, Bool.false_eq_true, if_false, if_true,
            eq_self_iff_true, hmulti, hparts, M.run_bind, run_log,
            run_handle_expression, run_resolveReference, M.run_read,
            M.run_pure, hcond, Ctx.resolve, hres, Ctx.isInRecord,
            Ctx.isInFunction, hrec, hfun, Bool.not_false, Bool.and_self,
            Bool.not_true, Bool.false_and, Bool.true_and,
            hdr, run_addDeclaration, addDeclFrames_cons, hframes,
            Decl.name_fieldBuilder,
            List.append_assoc, List.cons_append, List.nil_append]
        exact ⟨_, _, hrun, rfl, rfl, rfl⟩
  · have hdr := member_not_declared _ hmem
    cases value? with
    | some v =>
        have hrun :
            (handle_assign stmt).run c =
              .ok (.decl (DeclarationBuilderKt.newFieldDeclaration
                  "DUMMY" (lowerPure v).gtype
                  (get_src_code stmt) (some (lowerPure v)) false))
                { c with
                  diags := c.diags ++ [⟨"Start handle_assign", .trace⟩,
                    ⟨"Expected a DeclaredReferenceExpression but got a MemberExpression. Using a dummy.",
                      .error⟩,
                    ⟨"Could not resolve: creating a new field", .trace⟩,
                    ⟨"End handle_assign", .trace⟩]
                  events := c.events ++ [.lowerExpr target, .lowerExpr v,
                    .resolveRef (lowerPure target).gname,
                    .addDecl "DUMMY"]
                  frames := { fr with decls := fr.decls ++
                    [DeclarationBuilderKt.newFieldDeclaration
                      "DUMMY" (lowerPure v).gtype
                      (get_src_code stmt) (some (lowerPure v)) false] }
                    :: rest } := by
          simp only [handle_assign, handle_assign_impl,
            stmtIsClassAugAssign, Bool.false_eq_true, if_false, if_true,
            eq_self_iff_true, hmulti, hparts, M.run_bind, run_log,
            run_handle_expression, run_resolveReference, M.run_read,
            M.run_pure, hcond, Ctx.resolve, hres, Ctx.isInRecord,
            Ctx.isInFunction, hrec, hfun, Bool.not_false, Bool.and_self,
            Bool.not_true, Bool.false_and, Bool.true_and,
            hdr, hmem, run_addDeclaration, addDeclFrames_cons, hframes,
            Decl.name_fieldBuilder,
            List.append_assoc, List.cons_append, List.nil_append]
        exact ⟨_, _, hrun, rfl, rfl, rfl⟩
    | none =>
        have hrun :
            (handle_assign stmt).run c =
              .ok (.decl (DeclarationBuilderKt.newFieldDeclaration
                  "DUMMY" .unknown (get_src_code stmt) none false))
                { c with
                  diags := c.diags ++ [⟨"Start handle_assign", .trace⟩,
                    ⟨"Expected a DeclaredReferenceExpression but got a MemberExpression. Using a dummy.",
                      .error⟩,
                    ⟨"Could not resolve: creating a new field", .trace⟩,
                    ⟨"End handle_assign", .trace⟩]
                  events := c.events ++ [.lowerExpr target,
                    .resolveRef (lowerPure target).gname,
                    .addDecl "DUMMY"]
                  frames := { fr with decls := fr.decls ++
                    [DeclarationBuilderKt.newFieldDeclaration
                      "DUMMY" .unknown (get_src_code stmt) none false] }
                    :: rest } := by
          simp only [handle_assign, handle_assign_impl,
            stmtIsClassAugAssign, Bool.false_eq_true, if_false, if_true,
            eq_self_iff_true, hmulti, hparts, M.run_bind, run_log,
            run_handle_expression, run_resolveReference, M.run_read,
            M.run_pure, hcond, Ctx.resolve, hres, Ctx.isInRecord,
            Ctx.isInFunction, hrec, hfun, Bool.not_false, Bool.and_self,
            Bool.not_true, Bool.false_and, Bool.true_and,
            hdr, hmem, run_addDeclaration, addDeclFrames_cons, hframes,
            Decl.name_fieldBuilder,
            List.append_assoc, List.cons_append, List.nil_append]
        exact ⟨_, _, hrun, rfl, rfl, rfl⟩

/-- Witness for C2: `cv = 1` directly in a class body synthesizes a field
of type `int`. -/
theorem C2_witness :
    ∃ v c',
      (handle_assign (.assign [.name "cv" .unknown]
          (.constant "1" (.named "int")))).run ctxRec =
        .ok (.decl v) c' ∧
      v.kind = .field ∧
      v.ty = (match (some (PyExpr.constant "1" (.named "int"))) with
              | some r => (lowerPure r).gtype
              | none => .unknown) ∧
      c'.frames = { (⟨some recFoo, []⟩ : Frame) with
        decls := Frame.decls ⟨some recFoo, []⟩ ++ [v] } :: [⟨none, []⟩] :=
  C2_unresolved_classbody_makes_field
    (.assign [.name "cv" .unknown] (.constant "1" (.named "int")))
    (.name "cv" .unknown) (some (.constant "1" (.named "int"))) ctxRec
    ⟨some recFoo, []⟩ [⟨none, []⟩] rfl rfl (Or.inl rfl) rfl rfl rfl

/-- C3: an assignment inside a method whose member-access target fails to
resolve and whose base is not the method's receiver logs the "I'm confused."
diagnostic and returns the bare placeholder statement; the frame stack is
returned exactly as it was, so no field is synthesized, registered in any
scope, or attached to the record. -/
theorem C3_foreign_base_member_rejected (stmt : PyStmt) (target : PyExpr)
    (value? : Option PyExpr) (c : Ctx)
    (hparts : handle_assign_impl.assignParts stmt = some (target, value?))
    (hmem : is_member_expression (lowerPure target) = true)
    (hres : c.resolve (lowerPure target) = none)
    (hrec : c.isInRecord = true) (hfun : c.isInFunction = true)
    (hnotrecv : memBaseIsReceiver c
      ((lowerPure target).gbase.getD (GExpr.other "" .unknown "")) =
        false) :
    ∃ c',
      (handle_assign stmt).run c = .ok (.stmt (.placeholder "DUMMY")) c' ∧
      c'.frames = c.frames ∧
      (⟨"I'm confused.", .error⟩ : Diag) ∈ c'.diags := by
  have hmulti := assignParts_single stmt target value? hparts
  have hdr := member_not_declared _ hmem
  have hcond : (!is_declared_reference (lowerPure target) &&
      !is_member_expression (lowerPure target)) = false := by
    simp [hmem]
  simp only [Ctx.resolve] at hres
  simp only [Ctx.isInRecord] at hrec
  simp only [Ctx.isInFunction] at hfun
  simp only [memBaseIsReceiver, Ctx.receiverName, Ctx.currentFunction]
    at hnotrecv
  cases value? with
  | some v =>
      have hrun :
          (handle_assign stmt).run c =
            .ok (.stmt (.placeholder "DUMMY"))
              { c with
                diags := c.diags ++ [⟨"Start handle_assign", .trace⟩,
                  ⟨"Probably a new field", .trace⟩,
                  ⟨"I'm confused.", .error⟩,
                  ⟨"End handle_assign", .trace⟩]
                events := c.events ++ [.lowerExpr target, .lowerExpr v,
                  .resolveRef (lowerPure target).gname] } := by
        simp only [handle_assign, handle_assign_impl, stmtIsClassAugAssign,
          Bool.false_eq_true, if_false, if_true, eq_self_iff_true, hmulti,
          hparts, M.run_bind, run_log, run_handle_expression,
          run_resolveReference, M.run_read, M.run_pure, hcond, Ctx.resolve,
          hres, Ctx.isInRecord, Ctx.isInFunction, hrec, hfun,
          Bool.not_true, Bool.and_false, Bool.and_self, Bool.not_false,
          hdr, hmem, memBaseIsReceiver, Ctx.receiverName,
          Ctx.currentFunction, hnotrecv, StatementBuilderKt.newStatement,
          List.append_assoc, List.cons_append, List.nil_append]
      exact ⟨_, hrun, rfl, by simp⟩
  | none =>
      have hrun :
          (handle_assign stmt).run c =
            .ok (.stmt (.placeholder "DUMMY"))
              { c with
                diags := c.diags ++ [⟨"Start handle_assign", .trace⟩,
                  ⟨"Probably a new field", .trace⟩,
                  ⟨"I'm confused.", .error⟩,
                  ⟨"End handle_assign", .trace⟩]
                events := c.events ++ [.lowerExpr target,
                  .resolveRef (lowerPure target).gname] } := by
        simp only [handle_assign, handle_assign_impl, stmtIsClassAugAssign,
          Bool.false_eq_true, if_false, if_true, eq_self_iff_true, hmulti,
          hparts, M.run_bind, run_log, run_handle_expression,
          run_resolveReference, M.run_read, M.run_pure, hcond, Ctx.resolve,
          hres, Ctx.isInRecord, Ctx.isInFunction, hrec, hfun,
          Bool.not_true, Bool.and_false, Bool.and_self, Bool.not_false,
          hdr, hmem, memBaseIsReceiver, Ctx.receiverName,
          Ctx.currentFunction, hnotrecv, StatementBuilderKt.newStatement,
          List.append_assoc, List.cons_append, List.nil_append]
      exact ⟨_, hrun, rfl, by simp⟩

/-- Witness for C3: `other.y = 2` inside method `bar` of `Foo`, where
`other` is not the receiver `self`, is rejected with a placeholder. -/
theorem C3_witness :
    ∃ c',
      (handle_assign (.assign
          [.attribute (.name "other" .unknown) "y" .unknown]
          (.constant "2" (.named "int")))).run ctxMeth =
        .ok (.stmt (.placeholder "DUMMY")) c' ∧
      c'.frames = ctxMeth.frames ∧
      (⟨"I'm confused.", .error⟩ : Diag) ∈ c'.diags :=
  C3_foreign_base_member_rejected
    (.assign [.attribute (.name "other" .unknown) "y" .unknown]
      (.constant "2" (.named "int")))
    (.attribute (.name "other" .unknown) "y" .unknown)
    (some (.constant "2" (.named "int"))) ctxMeth rfl rfl rfl rfl rfl rfl

/-- The declaration the import loop produces for one alias: a variable named
by the as-name when present (else the imported name), of unknown type,
whose code snippet repeats the as-name on both sides of `as`. -/
def aliasVariable (a : PyAlias) : Decl :=
  match a.asname with
  | some asn => Decl.base .variable asn .unknown (asn ++ " as " ++ asn)
  | none => Decl.base .variable a.name .unknown a.name

/-- Exact run of the per-alias import loop: every alias yields its
`aliasVariable`, registered in the innermost frame in order. -/
theorem import_aliases_loop_run (names : List PyAlias) (c : Ctx)
    (fr : Frame) (rest : List Frame) (h : c.frames = fr :: rest) :
    (handle_statement_impl.import_aliases_loop names).run c =
      .ok (names.map aliasVariable)
        { c with
          frames :=
            { fr with decls := fr.decls ++ names.map aliasVariable } :: rest
          events := c.events ++
            names.map (fun a => .addDecl (aliasVariable a).name) } := by
  induction names generalizing c fr with
  | nil =>
      simp only [handle_statement_impl.import_aliases_loop, M.run_pure,
        List.map_nil, List.append_nil]
      cases c
      simp_all
  | cons a rest' ih =>
      have step :
          (handle_statement_impl.import_aliases_loop (a :: rest')).run c =
            (handle_statement_impl.import_aliases_loop rest' >>=
              fun others => Pure.pure ((aliasVariable a) :: others)).run
              { c with
                frames :=
                  { fr with decls := fr.decls ++ [aliasVariable a] } :: rest
                events := c.events ++ [.addDecl (aliasVariable a).name] }
          := by
        cases ha : a.asname <;>
          simp only [handle_statement_impl.import_aliases_loop,
            DeclarationBuilderKt.newVariableDeclaration, aliasVariable, ha,
            M.run_bind, run_addDeclaration, addDeclFrames_cons, h,
            M.run_pure]
      rw [step, M.run_bind, ih _ _ rfl]
      simp [List.append_assoc]

/-- C10: both import forms lower each alias to one variable declaration of
unknown type, registered in the current scope and collected on the returned
declaration statement; an aliased import (`import X as Y`) yields a
declaration named `Y` whose source snippet is the string `"Y as Y"` — the
original name `X` appears nowhere in it (see `aliasVariable`). -/
theorem C10_import_aliases (recStmt : RecStmt) (names : List PyAlias)
    (module : Option String) (c : Ctx) (fr : Frame) (rest : List Frame)
    (h : c.frames = fr :: rest) :
    (∃ c',
      (handle_statement_impl recStmt (.importStmt names)).run c =
        .ok (.stmt (.declStmt (names.map aliasVariable)
          (get_src_code (.importStmt names)))) c' ∧
      c'.frames =
        { fr with decls := fr.decls ++ names.map aliasVariable } :: rest) ∧
    (∃ c',
      (handle_statement_impl recStmt (.importFrom module names)).run c =
        .ok (.stmt (.declStmt (names.map aliasVariable)
          (get_src_code (.importFrom module names)))) c' ∧
      c'.frames =
        { fr with decls := fr.decls ++ names.map aliasVariable } :: rest) :=
  by
  constructor
  · have hrun :
        (handle_statement_impl recStmt (.importStmt names)).run c =
          .ok (.stmt (.declStmt (names.map aliasVariable)
            (get_src_code (.importStmt names))))
            { c with
              frames := { fr with
                decls := fr.decls ++ names.map aliasVariable } :: rest
              events := c.events ++
                names.map (fun a => .addDecl (aliasVariable a).name) } := by
      simp only [handle_statement_impl, M.run_bind]
      rw [import_aliases_loop_run names c fr rest h]
      rfl
    exact ⟨_, hrun, rfl⟩
  · have hrun :
        (handle_statement_impl recStmt (.importFrom module names)).run c =
          .ok (.stmt (.declStmt (names.map aliasVariable)
            (get_src_code (.importFrom module names))))
            { c with
              diags := c.diags ++
                [⟨"Cannot correctly handle import from", .error⟩]
              frames := { fr with
                decls := fr.decls ++ names.map aliasVariable } :: rest
              events := c.events ++
                names.map (fun a => .addDecl (aliasVariable a).name) } := by
      simp only [handle_statement_impl, M.run_bind, run_log]
      rw [import_aliases_loop_run names
        { c with diags := c.diags ++
            [⟨"Cannot correctly handle import from", .error⟩] } fr rest h]
      rfl
    exact ⟨_, hrun, rfl⟩

/-- C4 counterexample.  The claim says an unresolved loop target's
synthesized variable is typed with the iterable's *element* type.  On
`for x in items: pass` with `items` lowered at type `list[int]` and `x`
unbound, the code types the variable with `it.getType()` — the iterable's
own type `list[int]`, which differs from the element type `int`. -/
theorem C4_counterexample :
    ∃ c',
      (handle_for (handle_statement 3)
          (.forStmt (.name "x" .unknown)
            (.name "items" (.list (.named "int"))) [.pass] [])).run ctx0 =
        .ok (.stmt (.forEach
          (some (.ref "items" (.list (.named "int")) "items" none))
          (some (.declStmt
            [Decl.base .variable "x" (.list (.named "int")) "x"] ""))
          (some (.compound [.empty "pass"] ""))
          (get_src_code (.forStmt (.name "x" .unknown)
            (.name "items" (.list (.named "int"))) [.pass] [])))) c' ∧
      (Decl.base .variable "x" (.list (.named "int")) "x").ty ≠
        PyTy.elementType (.list (.named "int")) ∧
      PyTy.elementType (.list (.named "int")) = .named "int" := by
  refine ⟨_, rfl, ?_, rfl⟩
  decide

/-- C4 as amended: for every for/async-for statement whose loop target
does not resolve, the iterable is lowered strictly before the target is
lowered and resolved (witnessed by the event order), and the synthesized
variable — typed with the type of the *lowered iterable expression*, not
its element type — is registered in the innermost frame, wrapped into
declaration-statement form, and set as the loop variable of the returned
ForEach statement. -/
theorem C4_foreach_unresolved_target (fuel : Nat) (stmt : PyStmt)
    (isAsync : Bool) (target iter : PyExpr) (body orelse : List PyStmt)
    (c : Ctx) (fr : Frame) (t : List Frame) (r : LowerResult) (c' : Ctx)
    (hfp : handle_for.forParts stmt = some (isAsync, target, iter, body,
      orelse))
    (hfr : c.frames = fr :: t)
    (hres : c.resolve (lowerPure target) = none)
    (h : (handle_for (handle_statement fuel) stmt).run c = .ok r c') :
    ∃ bodyStmt Δ fr' t',
      r = .stmt (.forEach (some (lowerPure iter))
        (some (.declStmt
          [DeclarationBuilderKt.newVariableDeclaration
            (lowerPure target).gname (lowerPure iter).gtype (pySrc target)
            false] ""))
        (some bodyStmt) (get_src_code stmt)) ∧
      c'.events = c.events ++
        [.lowerExpr iter, .lowerExpr target,
         .resolveRef (lowerPure target).gname,
         .addDecl (lowerPure target).gname] ++ Δ ∧
      c'.frames = fr' :: t' ∧
      DeclarationBuilderKt.newVariableDeclaration
        (lowerPure target).gname (lowerPure iter).gtype (pySrc target)
        false ∈ fr'.decls := by
  simp only [Ctx.resolve] at hres
  rw [hfr] at hres
  rw [handle_for, hfp] at h
  cases isAsync
  all_goals
    simp only [Bool.false_eq_true, if_false, if_true, eq_self_iff_true,
      M.run_bind, run_log, M.run_pure, run_handle_expression,
      run_resolveReference, Ctx.resolve, hfr, hres, run_addDeclaration,
      addDeclFrames_cons, Decl.name_varBuilder, wrap_declaration_to_stmt,
      List.append_assoc, List.cons_append, List.nil_append] at h
  all_goals
    split at h
    · rename_i b c₂ heq
      obtain ⟨⟨Δb, hΔb⟩, hpb⟩ :=
        tame_make_compound (tame_handle_statement fuel) body _ _ _ heq
      obtain ⟨u3, c₃, h₃, h, hev₃, hp₃⟩ :=
        peel_tame (tame_ite _ (tame_log _ _) (tame_pure _)) h
      cases h
      obtain ⟨fr₂, t₂, hsh₂, hfρ, htp⟩ := framesPres_cons hpb
      rw [hsh₂] at hp₃
      obtain ⟨fr₃, t₃, hsh₃, hfρ₃, htp₃⟩ := framesPres_cons hp₃
      obtain ⟨Δ₃, hΔ₃⟩ := hev₃
      obtain ⟨Δd2, hd2⟩ := hfρ.2
      obtain ⟨Δd3, hd3⟩ := hfρ₃.2
      refine ⟨b, Δb ++ Δ₃, fr₃, t₃, rfl, ?_, hsh₃, ?_⟩
      · rw [hΔ₃, hΔb]
        simp [List.append_assoc]
      · rw [hd3, hd2]
        simp
    · cases h

/-- Witness for C4: lowering `for y in items: pass` with `items` of type
`list[str]` and `y` unbound at module level synthesizes the loop variable
at the iterable's own type `list[str]`, registers it, and sets it as the
ForEach loop variable. -/
theorem C4_witness :
    ∃ r c',
      (handle_for (handle_statement 3)
          (.forStmt (.name "y" .unknown)
            (.name "items" (.list (.named "str"))) [.pass] [])).run ctx0 =
        .ok r c' ∧
      ∃ bodyStmt Δ fr' t',
        r = .stmt (.forEach
          (some (.ref "items" (.list (.named "str")) "items" none))
          (some (.declStmt
            [Decl.base .variable "y" (.list (.named "str")) "y"] ""))
          (some bodyStmt)
          (get_src_code (.forStmt (.name "y" .unknown)
            (.name "items" (.list (.named "str"))) [.pass] []))) ∧
        c'.events = ctx0.events ++
          [.lowerExpr (.name "items" (.list (.named "str"))),
           .lowerExpr (.name "y" .unknown), .resolveRef "y",
           .addDecl "y"] ++ Δ ∧
        c'.frames = fr' :: t' ∧
        Decl.base .variable "y" (.list (.named "str")) "y" ∈ fr'.decls :=
  ⟨_, _, rfl,
    C4_foreach_unresolved_target 3
      (.forStmt (.name "y" .unknown)
        (.name "items" (.list (.named "str"))) [.pass] []) false
      (.name "y" .unknown) (.name "items" (.list (.named "str")))
      [.pass] [] ctx0 ⟨none, []⟩ [] _ _ rfl rfl rfl rfl⟩

/-- C8 counterexample.  The claim quantifies over every function-like
definition, but a definition whose first decorator is neither a
member-access invocation nor a name invocation crashes the lowering at
`annotation.setMembers` (line 392) before the scope frame is left: no
Function declaration is produced and the frame stack still holds the
function frame. -/
theorem C8_counterexample :
    ∃ c',
      (handle_function_or_method (handle_statement 3)
          (.functionDef "h" ⟨[], [], none, [], [], none, []⟩ []
            [.call (.constant "3" (.named "int")) [] [] .unknown] none)
          none).run ctx0 =
        .err .unboundLocal c' ∧
      c'.frames.length = 2 :=
  ⟨_, rfl, rfl⟩

/-- C8 as amended: for every function-like definition whose lowering
returns successfully (decorators of unsupported shape abort it — see the
counterexample), the produced declaration is a Constructor when lowered
with an enclosing record under the name `__init__`, a Method with an
enclosing record under any other name, and a free Function without one;
the trace shows one scope entry directly followed by the middle work and
closed by leaving the scope and only then registering the declaration, and
every effective positional parameter is registered inside the frame. -/
theorem C8_function_lowering_classification (fuel : Nat) (node : PyStmt)
    (record : Option Decl) (isAsync : Bool) (name : String)
    (args : PyArguments) (body : List PyStmt) (decs : List PyExpr)
    (rets : Option PyExpr) (c : Ctx) (r : Decl) (c' : Ctx)
    (hfp : handle_function_or_method.functionParts node =
      some (isAsync, name, args, body, decs, rets))
    (h : (handle_function_or_method (handle_statement fuel) node
      record).run c = .ok r c') :
    r.kind = (match record with
      | some _ => if name = "__init__" then DeclKind.constructor
                  else DeclKind.method
      | none => DeclKind.function) ∧
    r.name = name ∧
    (record = none → r.receiver = none) ∧
    ∃ mid, c'.events = c.events ++ [.enterScope name] ++ mid ++
      [.leaveScope name, .addDecl name] ∧
      ∀ a ∈ effectiveArgs record args, Event.addDecl a.arg ∈ mid := by
  rw [handle_function_or_method, hfp] at h
  cases record with
  | none =>
      obtain ⟨u1, c1, h1, h⟩ := peel_any h
      rw [run_diag_ite] at h1
      cases h1
      obtain ⟨u2, c2, h2, h⟩ := peel_any h
      rw [run_log] at h2
      cases h2
      simp only [M.run_bind, run_enterScope, Decl.name_funBuilder] at h
      obtain ⟨u3, c3, fr3, t3, h, hev3, hsh3, hp3⟩ :=
        peel_tame_cons (tame_diag_each _ _) rfl h
      obtain ⟨f4, c4, hpp, h⟩ := peel_any h
      obtain ⟨hk4, hn4, hrec4, E, hE, hEmem⟩ :=
        params_phase_shape none args _ c3 f4 c4 hpp
      obtain ⟨_, fr4, t4, hsh4, hp4⟩ :=
        tail_params_phase none args _ c3 f4 c4 fr3 t3 hsh3 hpp
      obtain ⟨u5, c5, fr5, t5, h, hev5, hsh5, hp5⟩ :=
        peel_tame_cons (tame_ite _ (tame_log _ _) (tame_pure _)) hsh4 h
      obtain ⟨u6, c6, fr6, t6, h, hev6, hsh6, hp6⟩ :=
        peel_tame_cons (tame_diag_each _ _) hsh5 h
      obtain ⟨u7, c7, fr7, t7, h, hev7, hsh7, hp7⟩ :=
        peel_tame_cons (tame_diag_each _ _) hsh6 h
      obtain ⟨u8, c8, fr8, t8, h, hev8, hsh8, hp8⟩ :=
        peel_tame_cons (tame_ite _ (tame_log _ _) (tame_pure _)) hsh7 h
      obtain ⟨u9, c9, fr9, t9, h, hev9, hsh9, hp9⟩ :=
        peel_tame_cons (tame_diag_each _ _) hsh8 h
      obtain ⟨f10, c10, hbp, h, hev10, hp10⟩ :=
        peel_tame
          (tame_function_body_phase (tame_handle_statement fuel) body f4)
          h
      obtain ⟨hk10, hn10, hr10⟩ :=
        function_body_phase_shape _ body f4 c9 f10 c10 hbp
      rw [hsh9] at hp10
      obtain ⟨fr10, t10, hsh10, hfr10, hpt10⟩ := framesPres_cons hp10
      obtain ⟨st, c11, fr11, t11, h, hev11, hsh11, hp11⟩ :=
        peel_tame_cons (tame_decorators_loop _ _) hsh10 h
      obtain ⟨u12, c12, fr12, t12, h, hev12, hsh12, hp12⟩ :=
        peel_tame_cons (tame_ite _ (tame_log _ _) (tame_pure _)) hsh11 h
      simp only [M.run_bind, run_addDeclaration, M.run_pure] at h
      simp only [M.run_beta] at h
      rw [app_leaveScope_cons _ _ _ _ hsh12] at h
      simp only [] at h
      cases h
      refine ⟨?_, ?_, ?_, ?_⟩
      · exact (Decl.kind_withAnnots _ _).trans
          (hk10.trans (hk4.trans rfl))
      · exact (Decl.name_withAnnots _ _).trans
          (hn10.trans (hn4.trans rfl))
      · intro _
        exact (Decl.receiver_withAnnots _ _).trans (hr10.trans
          ((congrArg Decl.receiver (hrec4 rfl)).trans rfl))
      · obtain ⟨Δ3, h3⟩ := hev3
        obtain ⟨Δ5, h5⟩ := hev5
        obtain ⟨Δ6, h6⟩ := hev6
        obtain ⟨Δ7, h7⟩ := hev7
        obtain ⟨Δ8, h8⟩ := hev8
        obtain ⟨Δ9, h9⟩ := hev9
        obtain ⟨ΔB, hB⟩ := hev10
        obtain ⟨Δ11, h11⟩ := hev11
        obtain ⟨Δ12, h12⟩ := hev12
        refine ⟨Δ3 ++ E ++ Δ5 ++ Δ6 ++ Δ7 ++ Δ8 ++ Δ9 ++ ΔB ++ Δ11 ++
          Δ12, ?_, ?_⟩
        · simp [h12, h11, hB, h9, h8, h7, h6, h5, hE, h3, hn10, hn4,
            List.append_assoc]
        · intro a ha
          have hmem := hEmem a ha
          simp only [List.append_assoc, List.mem_append]
          tauto
  | some rr =>
      obtain ⟨u1, c1, h1, h⟩ := peel_any h
      rw [run_diag_ite] at h1
      cases h1
      obtain ⟨u2, c2, h2, h⟩ := peel_any h
      rw [run_log] at h2
      cases h2
      simp only [M.run_bind, run_enterScope, apply_ite Decl.name,
        Decl.name_ctorBuilder, Decl.name_methBuilder, ite_self] at h
      obtain ⟨u3, c3, fr3, t3, h, hev3, hsh3, hp3⟩ :=
        peel_tame_cons (tame_diag_each _ _) rfl h
      obtain ⟨f4, c4, hpp, h⟩ := peel_any h
      obtain ⟨hk4, hn4, hrec4, E, hE, hEmem⟩ :=
        params_phase_shape (some rr) args _ c3 f4 c4 hpp
      obtain ⟨_, fr4, t4, hsh4, hp4⟩ :=
        tail_params_phase (some rr) args _ c3 f4 c4 fr3 t3 hsh3 hpp
      obtain ⟨u5, c5, fr5, t5, h, hev5, hsh5, hp5⟩ :=
        peel_tame_cons (tame_ite _ (tame_log _ _) (tame_pure _)) hsh4 h
      obtain ⟨u6, c6, fr6, t6, h, hev6, hsh6, hp6⟩ :=
        peel_tame_cons (tame_diag_each _ _) hsh5 h
      obtain ⟨u7, c7, fr7, t7, h, hev7, hsh7, hp7⟩ :=
        peel_tame_cons (tame_diag_each _ _) hsh6 h
      obtain ⟨u8, c8, fr8, t8, h, hev8, hsh8, hp8⟩ :=
        peel_tame_cons (tame_ite _ (tame_log _ _) (tame_pure _)) hsh7 h
      obtain ⟨u9, c9, fr9, t9, h, hev9, hsh9, hp9⟩ :=
        peel_tame_cons (tame_diag_each _ _) hsh8 h
      obtain ⟨f10, c10, hbp, h, hev10, hp10⟩ :=
        peel_tame
          (tame_function_body_phase (tame_handle_statement fuel) body f4)
          h
      obtain ⟨hk10, hn10, hr10⟩ :=
        function_body_phase_shape _ body f4 c9 f10 c10 hbp
      rw [hsh9] at hp10
      obtain ⟨fr10, t10, hsh10, hfr10, hpt10⟩ := framesPres_cons hp10
      obtain ⟨st, c11, fr11, t11, h, hev11, hsh11, hp11⟩ :=
        peel_tame_cons (tame_decorators_loop _ _) hsh10 h
      obtain ⟨u12, c12, fr12, t12, h, hev12, hsh12, hp12⟩ :=
        peel_tame_cons (tame_ite _ (tame_log _ _) (tame_pure _)) hsh11 h
      simp only [M.run_bind, run_addDeclaration, M.run_pure] at h
      simp only [M.run_beta] at h
      rw [app_leaveScope_cons _ _ _ _ hsh12] at h
      simp only [] at h
      cases h
      refine ⟨?_, ?_, ?_, ?_⟩
      · show _ = if name = "__init__" then DeclKind.constructor
            else DeclKind.method
        rw [Decl.kind_withAnnots, hk10, hk4]
        split_ifs <;> rfl
      · rw [Decl.name_withAnnots, hn10, hn4]
        split_ifs <;> rfl
      · intro hc
        exact Option.noConfusion hc
      · obtain ⟨Δ3, h3⟩ := hev3
        obtain ⟨Δ5, h5⟩ := hev5
        obtain ⟨Δ6, h6⟩ := hev6
        obtain ⟨Δ7, h7⟩ := hev7
        obtain ⟨Δ8, h8⟩ := hev8
        obtain ⟨Δ9, h9⟩ := hev9
        obtain ⟨ΔB, hB⟩ := hev10
        obtain ⟨Δ11, h11⟩ := hev11
        obtain ⟨Δ12, h12⟩ := hev12
        refine ⟨Δ3 ++ E ++ Δ5 ++ Δ6 ++ Δ7 ++ Δ8 ++ Δ9 ++ ΔB ++ Δ11 ++
          Δ12, ?_, ?_⟩
        · simp [h12, h11, hB, h9, h8, h7, h6, h5, hE, h3, hn10, hn4,
            apply_ite Decl.name, ite_self, List.append_assoc]
        · intro a ha
          have hmem := hEmem a ha
          simp only [List.append_assoc, List.mem_append]
          tauto

/-- Witness for C8: a free function `def f(a): ...` lowered at module
level comes back as a Function declaration named `f` with no receiver, its
parameter registered between scope entry and scope exit, and the
declaration registered only after the scope is left. -/
theorem C8_witness :
    ∃ r c',
      (handle_function_or_method (handle_statement 3)
          (.functionDef "f" ⟨[], [⟨"a", none⟩], none, [], [], none, []⟩
            [] [] none) none).run ctx0 = .ok r c' ∧
      (r.kind = DeclKind.function ∧ r.name = "f" ∧
       ((none : Option Decl) = none → r.receiver = none) ∧
       ∃ mid, c'.events = ctx0.events ++ [.enterScope "f"] ++ mid ++
           [.leaveScope "f", .addDecl "f"] ∧
         ∀ a ∈ effectiveArgs none
             ⟨[], [⟨"a", none⟩], none, [], [], none, []⟩,
           Event.addDecl a.arg ∈ mid) :=
  ⟨_, _, rfl,
    C8_function_lowering_classification 3
      (.functionDef "f" ⟨[], [⟨"a", none⟩], none, [], [], none, []⟩ [] []
        none)
      none false "f" ⟨[], [⟨"a", none⟩], none, [], [], none, []⟩ [] []
      none ctx0 _ _ rfl rfl⟩

/-- Appending a statement to a record keeps its method list. -/
theorem Decl.methods_addStatement (d : Decl) (s : GStmt) :
    (d.addStatement s).methods = d.methods := by cases d; rfl

/-- Appending a statement to a record appends it to the statement list. -/
theorem Decl.statements_addStatement (d : Decl) (s : GStmt) :
    (d.addStatement s).statements = d.statements ++ [s] := by
  cases d; rfl

/-- Shape of a successful function lowering without an enclosing record
(lines 283-293): the resulting declaration is a free Function carrying the
source name and no receiver. -/
theorem handle_function_none_shape (fuel : Nat) (node : PyStmt)
    (isAsync : Bool) (name : String) (args : PyArguments)
    (body : List PyStmt) (decs : List PyExpr) (rets : Option PyExpr)
    (c : Ctx) (f : Decl) (c' : Ctx)
    (hfp : handle_function_or_method.functionParts node =
      some (isAsync, name, args, body, decs, rets))
    (h : (handle_function_or_method (handle_statement fuel) node
      none).run c = .ok f c') :
    f.kind = DeclKind.function ∧ f.name = name ∧ f.receiver = none := by
  rw [handle_function_or_method, hfp] at h
  obtain ⟨u1, c1, h1, h⟩ := peel_any h
  rw [run_diag_ite] at h1
  cases h1
  obtain ⟨u2, c2, h2, h⟩ := peel_any h
  rw [run_log] at h2
  cases h2
  simp only [M.run_bind, run_enterScope, Decl.name_funBuilder] at h
  obtain ⟨u3, c3, fr3, t3, h, hev3, hsh3, hp3⟩ :=
    peel_tame_cons (tame_diag_each _ _) rfl h
  obtain ⟨f4, c4, hpp, h⟩ := peel_any h
  obtain ⟨hk4, hn4, hrec4, E, hE, hEmem⟩ :=
    params_phase_shape none args _ c3 f4 c4 hpp
  obtain ⟨_, fr4, t4, hsh4, hp4⟩ :=
    tail_params_phase none args _ c3 f4 c4 fr3 t3 hsh3 hpp
  obtain ⟨u5, c5, fr5, t5, h, hev5, hsh5, hp5⟩ :=
    peel_tame_cons (tame_ite _ (tame_log _ _) (tame_pure _)) hsh4 h
  obtain ⟨u6, c6, fr6, t6, h, hev6, hsh6, hp6⟩ :=
    peel_tame_cons (tame_diag_each _ _) hsh5 h
  obtain ⟨u7, c7, fr7, t7, h, hev7, hsh7, hp7⟩ :=
    peel_tame_cons (tame_diag_each _ _) hsh6 h
  obtain ⟨u8, c8, fr8, t8, h, hev8, hsh8, hp8⟩ :=
    peel_tame_cons (tame_ite _ (tame_log _ _) (tame_pure _)) hsh7 h
  obtain ⟨u9, c9, fr9, t9, h, hev9, hsh9, hp9⟩ :=
    peel_tame_cons (tame_diag_each _ _) hsh8 h
  obtain ⟨f10, c10, hbp, h, hev10, hp10⟩ :=
    peel_tame
      (tame_function_body_phase (tame_handle_statement fuel) body f4) h
  obtain ⟨hk10, hn10, hr10⟩ :=
    function_body_phase_shape _ body f4 c9 f10 c10 hbp
  rw [hsh9] at hp10
  obtain ⟨fr10, t10, hsh10, hfr10, hpt10⟩ := framesPres_cons hp10
  obtain ⟨st, c11, fr11, t11, h, hev11, hsh11, hp11⟩ :=
    peel_tame_cons (tame_decorators_loop _ _) hsh10 h
  obtain ⟨u12, c12, fr12, t12, h, hev12, hsh12, hp12⟩ :=
    peel_tame_cons (tame_ite _ (tame_log _ _) (tame_pure _)) hsh11 h
  simp only [M.run_bind, run_addDeclaration, M.run_pure] at h
  simp only [M.run_beta] at h
  rw [app_leaveScope_cons _ _ _ _ hsh12] at h
  simp only [] at h
  cases h
  refine ⟨?_, ?_, ?_⟩
  · exact (Decl.kind_withAnnots _ _).trans (hk10.trans (hk4.trans rfl))
  · exact (Decl.name_withAnnots _ _).trans (hn10.trans (hn4.trans rfl))
  · exact (Decl.receiver_withAnnots _ _).trans (hr10.trans
      ((congrArg Decl.receiver (hrec4 rfl)).trans rfl))

/-- C9.  An async function definition appearing directly in a class body
is not matched by the class-body loop's synchronous-function test (line
74): it is dispatched as an ordinary statement with no enclosing record,
lowered to a free Function declaration — not a Method or Constructor, and
with no receiver — and appended, wrapped as a declaration statement, to
the record's statement list; the record's method list is unchanged. -/
theorem C9_async_member_lowered_as_free_function (fuel : Nat)
    (n : String) (a : PyArguments) (b : List PyStmt) (d : List PyExpr)
    (rets : Option PyExpr) (c : Ctx) (fr : Frame) (t : List Frame)
    (u : Unit) (c' : Ctx)
    (hfr : c.frames = fr :: t)
    (h : (class_body_member (handle_statement fuel)
        (.asyncFunctionDef n a b d rets)).run c = .ok u c') :
    ∃ dcl fr' t',
      dcl.kind = DeclKind.function ∧ dcl.receiver = none ∧ dcl.name = n ∧
      c'.frames = fr' :: t' ∧
      ∀ cls, fr.container = some cls →
        ∃ cls', fr'.container = some cls' ∧
          cls'.methods = cls.methods ∧
          cls'.statements = cls.statements ++
            [wrap_declaration_to_stmt dcl] := by
  cases fuel with
  | zero =>
      simp only [class_body_member, handle_statement, M.run_bind,
        M.run_throwCrash] at h
      cases h
  | succ fuel =>
      simp only [class_body_member] at h
      obtain ⟨handled, c2, hrec, h⟩ := peel_any h
      simp only [handle_statement, handle_statement_with,
        handle_statement_impl, M.run_bind, run_log, M.run_pure] at hrec
      split at hrec
      · rename_i res c3 hmid
        cases hrec
        split at hmid
        · rename_i f c4 hfm
          cases hmid
          have hp0 := tame_handle_function_or_method
            (tame_handle_statement fuel) (.asyncFunctionDef n a b d rets)
            none _ _ _ hfm
          have hp1 : FramesPres c.frames c3.frames := hp0.2
          rw [hfr] at hp1
          obtain ⟨fr2, t2, hsh2, hfp2, hpt2⟩ := framesPres_cons hp1
          simp only [M.run_bind, run_modifyTopContainer, M.run_pure] at h
          rw [hsh2] at h
          simp only [] at h
          cases h
          obtain ⟨hk, hn, hrcv⟩ := handle_function_none_shape fuel
            (.asyncFunctionDef n a b d rets) true n a b d rets _ f _
            rfl hfm
          refine ⟨f, _, t2, hk, hrcv, hn, rfl, ?_⟩
          intro cls hcls
          have hcp : ContPres fr.container fr2.container := hfp2.1
          rw [hcls] at hcp
          cases hC2 : fr2.container with
          | none => rw [hC2] at hcp; exact hcp.elim
          | some cls₂ =>
              rw [hC2] at hcp
              obtain ⟨hk2, hn2, hr2, hm2, hs2, _⟩ := hcp
              refine ⟨cls₂.addStatement (wrap_declaration_to_stmt f),
                ?_, ?_, ?_⟩
              · simp [hC2]
              · rw [Decl.methods_addStatement, hm2]
              · rw [Decl.statements_addStatement, hs2]
        · cases hmid
      · cases hrec

/-- Witness for C9: `async def am(x): ...` directly inside the class body
of `Foo` comes back as a free Function named `am` appended to the
record's statement list, with the method list untouched. -/
theorem C9_witness :
    ∃ u c',
      (class_body_member (handle_statement 3)
          (.asyncFunctionDef "am"
            ⟨[], [⟨"x", none⟩], none, [], [], none, []⟩ [] []
            none)).run ctxRec = .ok u c' ∧
      ∃ dcl fr' t',
        dcl.kind = DeclKind.function ∧ dcl.receiver = none ∧
        dcl.name = "am" ∧ c'.frames = fr' :: t' ∧
        ∀ cls, (⟨some recFoo, []⟩ : Frame).container = some cls →
          ∃ cls', fr'.container = some cls' ∧
            cls'.methods = cls.methods ∧
            cls'.statements = cls.statements ++
              [wrap_declaration_to_stmt dcl] :=
  ⟨_, _, rfl,
    C9_async_member_lowered_as_free_function 3 "am"
      ⟨[], [⟨"x", none⟩], none, [], [], none, []⟩ [] [] none ctxRec
      ⟨some recFoo, []⟩ [⟨none, []⟩] _ _ rfl rfl⟩

/-- Witness for C6: `a = b = 1`-style node with two targets. -/
theorem C6_witness :
    ∃ c',
      (handle_assign (.assign [.name "a" .unknown, .name "b" .unknown]
          (.constant "1" (.named "int")))).run ctx0 =
        .ok (.stmt (.ofExpr (.binop "=" none none
          (get_src_code (.assign [.name "a" .unknown, .name "b" .unknown]
            (.constant "1" (.named "int"))))))) c' ∧
      c'.frames = ctx0.frames ∧
      (⟨NOT_IMPLEMENTED_MSG, .error⟩ : Diag) ∈ c'.diags :=
  C6_multi_target_assign_placeholder
    [.name "a" .unknown, .name "b" .unknown]
    (.constant "1" (.named "int")) ctx0 (by decide)

/-- Witness for C10: `import numpy as np` on the module frame. -/
theorem C10_witness :
    (∃ c',
      (handle_statement_impl (handle_statement 1)
          (.importStmt [⟨"numpy", some "np"⟩])).run ctx0 =
        .ok (.stmt (.declStmt ([⟨"numpy", some "np"⟩].map aliasVariable)
          (get_src_code (.importStmt [⟨"numpy", some "np"⟩])))) c' ∧
      c'.frames =
        { (⟨none, []⟩ : Frame) with
          decls := Frame.decls ⟨none, []⟩ ++
            [⟨"numpy", some "np"⟩].map aliasVariable } :: []) ∧
    (∃ c',
      (handle_statement_impl (handle_statement 1)
          (.importFrom (some "scipy") [⟨"numpy", some "np"⟩])).run ctx0 =
        .ok (.stmt (.declStmt ([⟨"numpy", some "np"⟩].map aliasVariable)
          (get_src_code (.importFrom (some "scipy")
            [⟨"numpy", some "np"⟩])))) c' ∧
      c'.frames =
        { (⟨none, []⟩ : Frame) with
          decls := Frame.decls ⟨none, []⟩ ++
            [⟨"numpy", some "np"⟩].map aliasVariable } :: []) :=
  C10_import_aliases (handle_statement 1) [⟨"numpy", some "np"⟩]
    (some "scipy") ctx0 ⟨none, []⟩ [] rfl

end CPGPython
